import Mathlib

/-!
Shallow embedding of the prize-roulette bot (src/bot.py): spreadsheet cell
values, the two storage variants (the row-oriented "google" client and the
download-mutate-upload "yandex" blob client), and the redemption coordinator
`process_spin`.  All definitions are executable; the claims from the
specification are stated and settled after the definitions.
-/

/-- A spreadsheet cell value: blank (Python `None`, or the empty cell the
row-oriented client reports), an integer, or a string. -/
inductive CellVal where
  | empty : CellVal
  | int : Int → CellVal
  | str : String → CellVal
  deriving DecidableEq, Repr

/-- Python truthiness of a cell value (`None`, `0` and `""` are falsy). -/
def CellVal.truthy : CellVal → Bool
  | .empty => false
  | .int n => n != 0
  | .str s => s != ""

/-- Digit run to a number, left to right; `none` on a non-digit or on an
empty run. -/
def digitsToNat (cs : List Char) : Option Nat :=
  if cs.isEmpty then none
  else
    cs.foldl (fun acc c =>
      match acc with
      | none => none
      | some n => if c.isDigit then some (n * 10 + (c.toNat - 48)) else none)
      (some 0)

/-- Python `int(s)` on a string: optional surrounding whitespace, optional
sign, digits; anything else raises `ValueError`. -/
def pyStrToInt (s : String) : Except String Int :=
  let cs := ((s.toList.dropWhile Char.isWhitespace).reverse.dropWhile
    Char.isWhitespace).reverse
  match cs with
  | '-' :: rest =>
      match digitsToNat rest with
      | some n => .ok (-(n : Int))
      | none => .error "ValueError"
  | '+' :: rest =>
      match digitsToNat rest with
      | some n => .ok (n : Int)
      | none => .error "ValueError"
  | _ =>
      match digitsToNat cs with
      | some n => .ok (n : Int)
      | none => .error "ValueError"

/-- Python `int(v)` on a cell value; `int(None)` raises `TypeError`. -/
def pyInt : CellVal → Except String Int
  | .int n => .ok n
  | .str s => pyStrToInt s
  | .empty => .error "TypeError"

/-- Models `int(curr_val) if curr_val else 0` in `_record_winner_yandex`. -/
def currOrZero (v : CellVal) : Except String Int :=
  if v.truthy then pyInt v else .ok 0

abbrev Grid := List (List CellVal)

/-- Row `r` (1-based) of a grid; absent rows read as blank, matching how
openpyxl and gspread report sparse regions. -/
def getRowG (g : Grid) (r : Nat) : List CellVal := g.getD (r - 1) []

/-- Cell at 1-based row `r`, column `c`; absent cells read as blank. -/
def getCellG (g : Grid) (r c : Nat) : CellVal := (getRowG g r).getD (c - 1) .empty

/-- Pad a list with a default value up to length `n`. -/
def padTo {α : Type} (l : List α) (n : Nat) (d : α) : List α :=
  l ++ List.replicate (n - l.length) d

/-- Write column `c` (1-based) of a row, extending the row with blanks when
needed (openpyxl cell assignment extends the sheet). -/
def setRowCell (row : List CellVal) (c : Nat) (v : CellVal) : List CellVal :=
  (padTo row c .empty).set (c - 1) v

/-- Write the cell at 1-based `(r, c)`, extending the grid when needed. -/
def setCellG (g : Grid) (r c : Nat) (v : CellVal) : Grid :=
  (padTo g r []).set (r - 1) (setRowCell (getRowG (padTo g r []) r) c v)

/-- A workbook: named worksheets, in file order. -/
abbrev Workbook := List (String × Grid)

def lookupSheet : Workbook → String → Option Grid
  | [], _ => none
  | (m, g) :: rest, n => if m = n then some g else lookupSheet rest n

def updateSheet : Workbook → String → Grid → Workbook
  | [], _, _ => []
  | (m, g) :: rest, n, g2 =>
      if m = n then (m, g2) :: rest else (m, g) :: updateSheet rest n g2

/-- `wb.create_sheet(n)` guarded by `if n not in wb.sheetnames`. -/
def ensureSheet (wb : Workbook) (n : String) : Workbook :=
  if (lookupSheet wb n).isSome then wb else wb ++ [(n, [])]

/-- The relevant part of an aiogram user object. -/
structure User where
  uid : Nat
  username : Option String
  deriving DecidableEq, Repr

/-- `f"@{user.username}" if user.username else "NoUsername"`. -/
def handleOf (u : User) : String :=
  match u.username with
  | some un => if un = "" then "NoUsername" else "@" ++ un
  | none => "NoUsername"

/-- The winner-log row both backends append (the wall-clock timestamp is
passed in as `now`). -/
def winnerRow (now : String) (u : User) (prizeName : CellVal) : List CellVal :=
  [.str now, .str (toString u.uid), .str (handleOf u), prizeName]

/-- The prize dict built by both listing functions: raw name, raw limit,
raw issued cell, and the 1-based sheet row of the prize. -/
structure PrizeEntry where
  name : CellVal
  limitVal : CellVal
  issuedVal : CellVal
  rowIdx : Nat
  deriving DecidableEq, Repr

/-- The `(status, row, col)` triple `check_token` returns; `status` is the
raw cell value (blank standing for Python `None`). -/
abbrev TokenData := CellVal × Option Nat × Option Nat

/-! ### Yandex (blob) variant -/

/-- The scan in `_check_token_yandex`: first row whose column A equals the
token; returns `(status, row_idx, None)`. -/
def scanTokensY (t : String) : Nat → Grid → TokenData
  | _, [] => (.empty, none, none)
  | idx, row :: rest =>
      if row.getD 0 .empty = .str t then (row.getD 1 .empty, some idx, none)
      else scanTokensY t (idx + 1) rest

/-- `_check_token_yandex`: a missing `Tokens` sheet yields the same
`(None, None, None)` triple as an absent token. -/
def checkTokenYandex (wb : Workbook) (t : String) : TokenData :=
  match lookupSheet wb "Tokens" with
  | none => (.empty, none, none)
  | some g => scanTokensY t 1 g

/-- `_check_token_yandex` with the download step made explicit: a failed
download propagates as an error. -/
def checkTokenYandexE (dl : Except String Workbook) (t : String) :
    Except String TokenData :=
  match dl with
  | .error e => .error e
  | .ok wb => .ok (checkTokenYandex wb t)

/-- `row[3] if len(row) > 3 and row[3] is not None else 0`. -/
def issuedCellOf (row : List CellVal) : CellVal :=
  if row.getD 3 .empty = .empty then .int 0 else row.getD 3 .empty

/-- `len(row) >= 3 and row[1] and row[2] is not None`. -/
def prizeRowShape (row : List CellVal) : Bool :=
  decide (3 ≤ row.length) && (row.getD 1 .empty).truthy
    && (row.getD 2 .empty != .empty)

/-- The row loop of `_get_prizes_yandex` (rows enumerated from `idx`); a
quota cell that fails `int()` raises, aborting the whole loop. -/
def prizesFrom : Nat → List (List CellVal) → Except String (List PrizeEntry)
  | _, [] => .ok []
  | idx, row :: rest =>
      if prizeRowShape row then
        match pyInt (row.getD 2 .empty) with
        | .error e => .error e
        | .ok l =>
            match pyInt (issuedCellOf row) with
            | .error e => .error e
            | .ok i =>
                match prizesFrom (idx + 1) rest with
                | .error e => .error e
                | .ok tail =>
                    if l - i > 0 then
                      .ok ({ name := row.getD 1 .empty,
                             limitVal := row.getD 2 .empty,
                             issuedVal := issuedCellOf row,
                             rowIdx := idx } :: tail)
                    else .ok tail
      else prizesFrom (idx + 1) rest

/-- The body of `_get_prizes_yandex` before its `except` clause. -/
def getPrizesYandexCore (wb : Workbook) : Except String (List PrizeEntry) :=
  match lookupSheet wb "Prizes" with
  | none => .error "KeyError"
  | some g => prizesFrom 2 (g.drop 1)

/-- `_get_prizes_yandex`: any exception is swallowed into an empty list. -/
def getPrizesYandex (wb : Workbook) : List PrizeEntry :=
  match getPrizesYandexCore wb with
  | .ok l => l
  | .error _ => []

/-- `_record_winner_yandex`: re-reads the current issued counter, writes
`current + 1`, and appends one winner row (creating `Winners` if absent). -/
def recordWinnerYandex (now : String) (u : User) (p : PrizeEntry)
    (wb : Workbook) : Except String Workbook :=
  match lookupSheet wb "Prizes" with
  | none => .error "KeyError"
  | some gP => do
      let curr ← currOrZero (getCellG gP p.rowIdx 4)
      let wb1 := updateSheet wb "Prizes" (setCellG gP p.rowIdx 4 (.int (curr + 1)))
      let wb2 := ensureSheet wb1 "Winners"
      let gW := (lookupSheet wb2 "Winners").getD []
      .ok (updateSheet wb2 "Winners" (gW ++ [winnerRow now u p.name]))

/-- `_add_tokens_yandex`: appends `[t, 'active']` rows, creating the
`Tokens` sheet when missing. -/
def addTokensYandex (ts : List String) (wb : Workbook) : Workbook :=
  let wb1 := ensureSheet wb "Tokens"
  let gT := (lookupSheet wb1 "Tokens").getD []
  updateSheet wb1 "Tokens" (gT ++ ts.map (fun t => [.str t, .str "active"]))

/-- `_mark_token_used_yandex`: writes `'used'` into column B of the stored
row; raises when the row index is `None`/invalid or `Tokens` is missing. -/
def markTokenUsedYandex (td : TokenData) (wb : Workbook) :
    Except String Workbook :=
  match td.2.1 with
  | none => .error "TypeError"
  | some r =>
      if r = 0 then .error "ValueError"
      else
        match lookupSheet wb "Tokens" with
        | none => .error "KeyError"
        | some gT => .ok (updateSheet wb "Tokens" (setCellG gT r 2 (.str "used")))

/-! ### Google (row-oriented) variant -/

/-- Column scan of `ws.find`: first cell equal to the query, 1-based. -/
def findInRow (t : String) : Nat → List CellVal → Option Nat
  | _, [] => none
  | c, v :: rest => if v = .str t then some c else findInRow t (c + 1) rest

/-- Row-major scan of `ws.find` over the whole worksheet. -/
def findRowsG (t : String) : Nat → Grid → Option (Nat × Nat)
  | _, [] => none
  | r, row :: rest =>
      match findInRow t 1 row with
      | some c => some (r, c)
      | none => findRowsG t (r + 1) rest

def findCellGoogle (g : Grid) (t : String) : Option (Nat × Nat) := findRowsG t 1 g

/-- `_check_token_google` with the `find` step's result made explicit: the
bare `except: pass` turns a failed lookup into the not-found triple. -/
def checkTokenGoogleWithFind (g : Grid)
    (findRes : Except String (Option (Nat × Nat))) : TokenData :=
  match findRes with
  | .error _ => (.empty, none, none)
  | .ok none => (.empty, none, none)
  | .ok (some (r, c)) => (getCellG g r (c + 1), some r, some (c + 1))

/-- `_check_token_google` on an open worksheet. -/
def checkTokenGoogle (g : Grid) (t : String) : TokenData :=
  checkTokenGoogleWithFind g (.ok (findCellGoogle g t))

/-- `_check_token_google` with the client/worksheet-opening step made
explicit: those calls sit outside the `try`, so their failure propagates. -/
def checkTokenGoogleE (gE : Except String Grid) (t : String) :
    Except String TokenData :=
  match gE with
  | .error e => .error e
  | .ok g => .ok (checkTokenGoogle g t)

/-- The row loop of `_get_prizes_google` (records enumerated from `idx`,
columns: B = name, C = limit, D = issued); a `ValueError` from either
`int()` is caught per row and the row is skipped. -/
def googleRecsFrom : Nat → List (List CellVal) → List PrizeEntry
  | _, [] => []
  | idx, row :: rest =>
      match pyInt (row.getD 2 .empty), pyInt (row.getD 3 .empty) with
      | .ok l, .ok i =>
          if l - i > 0 then
            { name := row.getD 1 .empty, limitVal := row.getD 2 .empty,
              issuedVal := row.getD 3 .empty, rowIdx := idx }
              :: googleRecsFrom (idx + 1) rest
          else googleRecsFrom (idx + 1) rest
      | _, _ => googleRecsFrom (idx + 1) rest

/-- `_get_prizes_google`: `get_all_records` skips the header row, so data
rows start at sheet row 2. -/
def getPrizesGoogle (g : Grid) : List PrizeEntry := googleRecsFrom 2 (g.drop 1)

/-- The google-variant store: the three worksheets of the spreadsheet. -/
structure GStore where
  tokens : Grid
  prizes : Grid
  winners : Grid
  deriving DecidableEq, Repr

/-- `_record_winner_google`: writes `int(prize['Выдано']) + 1` — the issued
count captured by the earlier listing — and appends one winner row. -/
def recordWinnerGoogle (now : String) (u : User) (p : PrizeEntry)
    (s : GStore) : Except String GStore := do
  let i ← pyInt p.issuedVal
  .ok { s with prizes := setCellG s.prizes p.rowIdx 4 (.int (i + 1)),
               winners := s.winners ++ [winnerRow now u p.name] }

/-- `_add_tokens_google`: appends `[t, 'active']` rows to `Tokens`. -/
def addTokensGoogle (ts : List String) (g : Grid) : Grid :=
  g ++ ts.map (fun t => [.str t, .str "active"])

/-- `_mark_token_used_google`: writes `'used'` when both coordinates are
truthy, otherwise does nothing; it never raises. -/
def markTokenUsedGoogle (td : TokenData) (g : Grid) : Grid :=
  match td with
  | (_, some r, some c) => if r != 0 && c != 0 then setCellG g r c (.str "used") else g
  | _ => g

/-! ### The coordinator (`process_spin`) -/

/-- The backend calls `process_spin` can make through `DataManager`. -/
inductive BCall where
  | checkToken | getPrizes | recordWinner | markUsed
  deriving DecidableEq, Repr

/-- The notifications the flow can emit. -/
inductive Msg where
  | inactive | noPrizes | techError
  | win : CellVal → Msg
  deriving DecidableEq, Repr

inductive Outcome where
  | rejected | exhausted | failed
  | awarded : CellVal → Outcome
  deriving DecidableEq, Repr

/-- The `DataManager` operation set, abstracted over the store type so the
coordinator can be stated once for both variants. -/
structure Backend (σ : Type) where
  check : σ → String → TokenData
  listPrizes : σ → Except String (List PrizeEntry)
  record : User → PrizeEntry → σ → Except String σ
  mark : TokenData → σ → Except String σ

/-- The observable result of one `process_spin` run: final store, outcome,
the backend calls made, the messages sent, and the store states after each
mutating call. -/
structure SpinResult (σ : Type) where
  store : σ
  outcome : Outcome
  calls : List BCall
  msgs : List Msg
  trace : List σ

/-- Python truthiness of the row index (`if row:`). -/
def rowTruthy : Option Nat → Bool
  | none => false
  | some r => r != 0

/-- `process_spin` (src/bot.py lines 384-427): validate the token, list
prizes, pick one (`k` stands for the index `random.choice` draws), record
the winner, then consume the token; exceptions inside the `try` fall
through to a generic failure notification. -/
def processSpin {σ : Type} (B : Backend σ) (t : String) (u : User) (k : Nat)
    (s : σ) : SpinResult σ :=
  let td := B.check s t
  if td.1 = .str "active" then
    match B.listPrizes s with
    | .error _ => ⟨s, .failed, [.checkToken, .getPrizes], [.techError], []⟩
    | .ok prizes =>
        if prizes.isEmpty then
          if rowTruthy td.2.1 then
            match B.mark td s with
            | .ok s1 =>
                ⟨s1, .exhausted, [.checkToken, .getPrizes, .markUsed],
                 [.noPrizes], [s1]⟩
            | .error _ =>
                ⟨s, .failed, [.checkToken, .getPrizes, .markUsed],
                 [.noPrizes, .techError], []⟩
          else ⟨s, .exhausted, [.checkToken, .getPrizes], [.noPrizes], []⟩
        else
          let p := prizes.getD (k % prizes.length) ⟨.empty, .empty, .empty, 0⟩
          match B.record u p s with
          | .error _ =>
              ⟨s, .failed, [.checkToken, .getPrizes, .recordWinner],
               [.techError], []⟩
          | .ok s1 =>
              if rowTruthy td.2.1 then
                match B.mark td s1 with
                | .ok s2 =>
                    ⟨s2, .awarded p.name,
                     [.checkToken, .getPrizes, .recordWinner, .markUsed],
                     [.win p.name], [s1, s2]⟩
                | .error _ =>
                    ⟨s1, .failed,
                     [.checkToken, .getPrizes, .recordWinner, .markUsed],
                     [.techError], [s1]⟩
              else
                ⟨s1, .awarded p.name, [.checkToken, .getPrizes, .recordWinner],
                 [.win p.name], [s1]⟩
  else ⟨s, .rejected, [.checkToken], [.inactive], []⟩

/-- `DataManager` with `DATA_SOURCE = 'yandex'`. -/
def yandexBackend (now : String) : Backend Workbook where
  check := fun wb t => checkTokenYandex wb t
  listPrizes := fun wb => .ok (getPrizesYandex wb)
  record := fun u p wb => recordWinnerYandex now u p wb
  mark := fun td wb => markTokenUsedYandex td wb

/-- `DataManager` with `DATA_SOURCE = 'google'`. -/
def googleBackend (now : String) : Backend GStore where
  check := fun s t => checkTokenGoogle s.tokens t
  listPrizes := fun s => .ok (getPrizesGoogle s.prizes)
  record := recordWinnerGoogle now
  mark := fun td s => .ok { s with tokens := markTokenUsedGoogle td s.tokens }

/-! ### Small-step view of the flow, for interleaving two requests

Each `DataManager` call is a suspension point of the cooperative scheduler
(`db_lock` makes the call itself atomic), so an interleaving of two flows is
a schedule over these atomic steps. -/

inductive Phase where
  | ready
  | drawing : TokenData → Phase
  | recording : TokenData → PrizeEntry → Phase
  | marking : TokenData → Option CellVal → Phase
  | done : Outcome → Phase
  deriving DecidableEq, Repr

/-- One atomic step of one in-flight `process_spin` invocation. -/
def stepFlow {σ : Type} (B : Backend σ) (t : String) (u : User) (k : Nat) :
    σ × Phase → σ × Phase
  | (s, .ready) =>
      let td := B.check s t
      if td.1 = .str "active" then (s, .drawing td) else (s, .done .rejected)
  | (s, .drawing td) =>
      match B.listPrizes s with
      | .error _ => (s, .done .failed)
      | .ok prizes =>
          if prizes.isEmpty then
            if rowTruthy td.2.1 then (s, .marking td none)
            else (s, .done .exhausted)
          else
            (s, .recording td (prizes.getD (k % prizes.length) ⟨.empty, .empty, .empty, 0⟩))
  | (s, .recording td p) =>
      match B.record u p s with
      | .error _ => (s, .done .failed)
      | .ok s1 =>
          if rowTruthy td.2.1 then (s1, .marking td (some p.name))
          else (s1, .done (.awarded p.name))
  | (s, .marking td aw) =>
      match B.mark td s with
      | .error _ => (s, .done .failed)
      | .ok s1 => (s1, .done (match aw with | none => .exhausted | some n => .awarded n))
  | (s, .done o) => (s, .done o)

/-- Two concurrent redemption requests for the same token over one shared
store. -/
structure TwoFlows (σ : Type) where
  store : σ
  ph0 : Phase
  ph1 : Phase

/-- Advance the flow the schedule names. -/
def twoFlowStep {σ : Type} (B : Backend σ) (t0 t1 : String) (u0 u1 : User)
    (k0 k1 : Nat) (st : TwoFlows σ) (which : Bool) : TwoFlows σ :=
  if which then
    let r := stepFlow B t1 u1 k1 (st.store, st.ph1)
    { st with store := r.1, ph1 := r.2 }
  else
    let r := stepFlow B t0 u0 k0 (st.store, st.ph0)
    { st with store := r.1, ph0 := r.2 }

def twoFlowRun {σ : Type} (B : Backend σ) (t0 t1 : String) (u0 u1 : User)
    (k0 k1 : Nat) (sched : List Bool) (st : TwoFlows σ) : TwoFlows σ :=
  sched.foldl (twoFlowStep B t0 t1 u0 u1 k0 k1) st

/-- Number of winner-log rows in a yandex workbook. -/
def winnersCountY (wb : Workbook) : Nat :=
  ((lookupSheet wb "Winners").getD []).length

/-! ### Sequential flow composition and the quota invariant -/

/-- Run a sequence of complete redemption flows against the blob store,
collecting every store state the flows pass through. -/
def runFlowsYandex (now : String) :
    List (String × User × Nat) → Workbook → Workbook × List Workbook
  | [], wb => (wb, [])
  | (t, u, k) :: rest, wb =>
      let res := processSpin (yandexBackend now) t u k wb
      let r2 := runFlowsYandex now rest res.store
      (r2.1, res.trace ++ r2.2)

/-- Per-row quota invariant: whenever both quota cells parse the way the
listing parses them, issued does not exceed limit. -/
def invRowB (row : List CellVal) : Bool :=
  match pyInt (row.getD 2 .empty), pyInt (issuedCellOf row) with
  | .ok l, .ok i => decide (i ≤ l)
  | _, _ => true

/-- The quota invariant over the whole `Prizes` sheet. -/
def prizesInvB (wb : Workbook) : Bool :=
  match lookupSheet wb "Prizes" with
  | none => true
  | some g => g.all invRowB

/-! ### Listing as the specification words it (for claim C5) -/

/-- Refinement reading of the spec sentence for `listAvailablePrizes`: keep
exactly the rows whose quota cells parse as integers with
`limit - issued > 0`; a row that fails to parse is skipped individually. -/
def specListAvailable : Nat → List (List CellVal) → List PrizeEntry
  | _, [] => []
  | idx, row :: rest =>
      match pyInt (row.getD 2 .empty), pyInt (row.getD 3 .empty) with
      | .ok l, .ok i =>
          if l - i > 0 then
            { name := row.getD 1 .empty, limitVal := row.getD 2 .empty,
              issuedVal := row.getD 3 .empty, rowIdx := idx }
              :: specListAvailable (idx + 1) rest
          else specListAvailable (idx + 1) rest
      | _, _ => specListAvailable (idx + 1) rest

/-- The blob-variant row filter with per-row skipping (what the listing
computes when no row raises): yandex's extra shape preconditions plus the
per-row quota parse. -/
def yandexRowFilter : Nat → List (List CellVal) → List PrizeEntry
  | _, [] => []
  | idx, row :: rest =>
      if prizeRowShape row then
        match pyInt (row.getD 2 .empty), pyInt (issuedCellOf row) with
        | .ok l, .ok i =>
            if l - i > 0 then
              { name := row.getD 1 .empty, limitVal := row.getD 2 .empty,
                issuedVal := issuedCellOf row, rowIdx := idx }
                :: yandexRowFilter (idx + 1) rest
            else yandexRowFilter (idx + 1) rest
        | _, _ => yandexRowFilter (idx + 1) rest
      else yandexRowFilter (idx + 1) rest

/-! ### Concrete stores used by the claim theorems -/

/-- Success or failure of an `Except` computation, as a Boolean. -/
def exOk {ε α : Type} : Except ε α → Bool
  | .ok _ => true
  | .error _ => false

/-- Two-flow scenario: one active token, one prize with two remaining
slots. -/
def wbTwo : Workbook :=
  [("Tokens", [[.str "t", .str "active"]]),
   ("Prizes", [[.str "ID", .str "Name", .str "Limit", .str "Issued"],
               [.str "1", .str "P", .int 2, .int 0]])]

/-- A storage backend whose award step fails with a storage error while
validation and listing succeed — the scenario of the spec's Awarding
clause (for instance the network dropping between listing and upload). -/
def failingAwardBackend : Backend Unit where
  check := fun _ _ => (.str "active", some 1, some 2)
  listPrizes := fun _ => .ok [⟨.str "P", .int 1, .int 0, 2⟩]
  record := fun _ _ _ => .error "StorageError"
  mark := fun _ s => .ok s

/-- A prize sheet with one well-formed available row and one row whose
limit cell does not parse as an integer. -/
def wbBadQuota : Workbook :=
  [("Prizes", [[.str "ID", .str "Name", .str "Limit", .str "Issued"],
               [.str "1", .str "A", .int 5, .int 0],
               [.str "2", .str "B", .str "x", .int 0]])]

/-- A workbook whose `Prizes` sheet is missing entirely: listing it raises
inside `_get_prizes_yandex` and is swallowed into an empty list. -/
def wbNoPrizes : Workbook := [("Tokens", [[.str "t", .str "active"]])]

/-- One active token and one single-slot prize, for witness runs. -/
def wbQuota : Workbook :=
  [("Tokens", [[.str "q", .str "active"]]),
   ("Prizes", [[.str "ID", .str "Name", .str "Limit", .str "Issued"],
               [.str "1", .str "Q", .int 1, .int 0]])]

/-! ### Basic lemmas: padding, grids, workbooks -/

theorem padTo_length {α : Type} (l : List α) (n : Nat) (d : α) :
    (padTo l n d).length = max l.length n := by
  simp [padTo]; omega

theorem padTo_eq_of_le {α : Type} {l : List α} {n : Nat} (d : α)
    (h : n ≤ l.length) : padTo l n d = l := by
  simp [padTo, Nat.sub_eq_zero_of_le h]

theorem padTo_getD {α : Type} (l : List α) (n i : Nat) (d : α) :
    (padTo l n d).getD i d = l.getD i d := by
  simp only [padTo, List.getD_eq_getElem?_getD, List.getElem?_append]
  split
  · rfl
  · rename_i h
    rw [List.getElem?_eq_none (by omega : l.length ≤ i),
        List.getElem?_replicate]
    split <;> rfl

theorem getD_set_self {α : Type} (l : List α) (i : Nat) (a d : α)
    (h : i < l.length) : (l.set i a).getD i d = a := by
  rw [List.getD_eq_getElem?_getD, List.getElem?_set_self h]; rfl

theorem getD_set_ne {α : Type} (l : List α) {i j : Nat} (a d : α)
    (h : i ≠ j) : (l.set i a).getD j d = l.getD j d := by
  rw [List.getD_eq_getElem?_getD, List.getElem?_set_ne h,
    ← List.getD_eq_getElem?_getD]

theorem lookupSheet_append_of_none (a b : Workbook) (n : String)
    (h : lookupSheet a n = none) : lookupSheet (a ++ b) n = lookupSheet b n := by
  induction a with
  | nil => rfl
  | cons hd tl ih =>
      obtain ⟨m, g⟩ := hd
      simp only [lookupSheet] at h
      by_cases hm : m = n
      · simp [hm] at h
      · simp only [List.cons_append, lookupSheet, if_neg hm] at *
        exact ih h

theorem lookupSheet_append_of_some (a b : Workbook) (n : String) (g0 : Grid)
    (h : lookupSheet a n = some g0) : lookupSheet (a ++ b) n = some g0 := by
  induction a with
  | nil => simp [lookupSheet] at h
  | cons hd tl ih =>
      obtain ⟨m, g⟩ := hd
      simp only [lookupSheet] at h
      by_cases hm : m = n
      · simp only [if_pos hm] at h
        simp [List.cons_append, lookupSheet, if_pos hm, h]
      · simp only [if_neg hm] at h
        simp only [List.cons_append, lookupSheet, if_neg hm]
        exact ih h

theorem lookupSheet_updateSheet_self (wb : Workbook) (n : String) (g g0 : Grid)
    (h : lookupSheet wb n = some g0) :
    lookupSheet (updateSheet wb n g) n = some g := by
  induction wb with
  | nil => simp [lookupSheet] at h
  | cons hd tl ih =>
      obtain ⟨m, gg⟩ := hd
      simp only [lookupSheet] at h
      by_cases hm : m = n
      · simp [updateSheet, if_pos hm, lookupSheet]
      · simp only [if_neg hm] at h
        simp only [updateSheet, if_neg hm, lookupSheet]
        exact ih h

theorem lookupSheet_updateSheet_ne (wb : Workbook) {n m : String} (g : Grid)
    (h : m ≠ n) : lookupSheet (updateSheet wb n g) m = lookupSheet wb m := by
  induction wb with
  | nil => rfl
  | cons hd tl ih =>
      obtain ⟨nm, gg⟩ := hd
      by_cases hnm : nm = n
      · have hnmm : ¬nm = m := by rw [hnm]; exact fun hh => h hh.symm
        simp [updateSheet, if_pos hnm, lookupSheet, if_neg hnmm]
      · by_cases hm2 : nm = m
        · simp [updateSheet, if_neg hnm, lookupSheet, if_pos hm2]
        · simp [updateSheet, if_neg hnm, lookupSheet, if_neg hm2, ih]

theorem lookupSheet_ensureSheet_self (wb : Workbook) (n : String) :
    lookupSheet (ensureSheet wb n) n = some ((lookupSheet wb n).getD []) := by
  unfold ensureSheet
  cases h : lookupSheet wb n with
  | some g => simp [h]
  | none =>
      simp only [h, Option.isSome_none, Bool.false_eq_true, if_false]
      rw [lookupSheet_append_of_none _ _ _ h]
      simp [lookupSheet]

theorem lookupSheet_ensureSheet_ne (wb : Workbook) {n m : String}
    (h : m ≠ n) : lookupSheet (ensureSheet wb n) m = lookupSheet wb m := by
  unfold ensureSheet
  split
  · rfl
  · cases h2 : lookupSheet wb m with
    | some g => exact lookupSheet_append_of_some _ _ _ _ h2
    | none =>
        rw [lookupSheet_append_of_none _ _ _ h2]
        have hnm : ¬n = m := fun hh => h hh.symm
        simp [lookupSheet, hnm]

theorem updateSheet_updateSheet (wb : Workbook) (n : String) (g g2 : Grid) :
    updateSheet (updateSheet wb n g) n g2 = updateSheet wb n g2 := by
  induction wb with
  | nil => rfl
  | cons hd tl ih =>
      obtain ⟨m, gg⟩ := hd
      by_cases hm : m = n
      · simp [updateSheet, if_pos hm]
      · simp [updateSheet, if_neg hm, ih]

theorem length_setCellG_ge (g : Grid) (r c : Nat) (v : CellVal) :
    r ≤ (setCellG g r c v).length := by
  unfold setCellG
  rw [List.length_set, padTo_length]; omega

theorem setRowCell_idem (row : List CellVal) (c : Nat) (v : CellVal) :
    setRowCell (setRowCell row c v) c v = setRowCell row c v := by
  unfold setRowCell
  rw [padTo_eq_of_le _ (by rw [List.length_set, padTo_length]; omega)]
  exact List.set_set _ _ _ _

theorem getRowG_setCellG_self (g : Grid) (r c : Nat) (v : CellVal)
    (hr : 1 ≤ r) : getRowG (setCellG g r c v) r =
      setRowCell (getRowG (padTo g r []) r) c v := by
  unfold setCellG getRowG
  apply getD_set_self
  rw [padTo_length]; omega

theorem setCellG_idem (g : Grid) (r c : Nat) (v : CellVal) (hr : 1 ≤ r) :
    setCellG (setCellG g r c v) r c v = setCellG g r c v := by
  conv_lhs => rw [setCellG]
  rw [padTo_eq_of_le _ (length_setCellG_ge g r c v),
    getRowG_setCellG_self g r c v hr, setRowCell_idem]
  conv_lhs => rw [setCellG]
  exact List.set_set _ _ _ _

theorem setRowCell_getD_self (row : List CellVal) (c : Nat) (v : CellVal)
    (hc : 1 ≤ c) : (setRowCell row c v).getD (c - 1) .empty = v := by
  unfold setRowCell
  apply getD_set_self
  rw [padTo_length]; omega

theorem setRowCell_getD_ne (row : List CellVal) {c m : Nat} (v : CellVal)
    (h : c - 1 ≠ m) : (setRowCell row c v).getD m .empty = row.getD m .empty := by
  unfold setRowCell
  rw [getD_set_ne _ _ _ h]
  exact padTo_getD row c m .empty

theorem getCellG_setCellG_self (g : Grid) (r c : Nat) (v : CellVal)
    (hr : 1 ≤ r) (hc : 1 ≤ c) : getCellG (setCellG g r c v) r c = v := by
  unfold getCellG
  rw [getRowG_setCellG_self g r c v hr]
  exact setRowCell_getD_self _ c v hc

theorem getRowG_setCellG_ne (g : Grid) {r r2 : Nat} (c : Nat) (v : CellVal)
    (h : r ≠ r2) (hr : 1 ≤ r) (hr2 : 1 ≤ r2) :
    getRowG (setCellG g r c v) r2 = getRowG g r2 := by
  unfold setCellG getRowG
  rw [getD_set_ne _ _ _ (by omega : r - 1 ≠ r2 - 1)]
  exact padTo_getD g r (r2 - 1) []

theorem scanTokensY_found (t : String) (g : Grid) :
    ∀ idx, (scanTokensY t idx g).1 ≠ .empty →
      ∃ r, (scanTokensY t idx g).2.1 = some r ∧ idx ≤ r := by
  induction g with
  | nil => intro idx h; simp [scanTokensY] at h
  | cons row rest ih =>
      intro idx h
      by_cases hc : row.getD 0 .empty = .str t
      · exact ⟨idx, by simp only [scanTokensY, if_pos hc], le_refl idx⟩
      · simp only [scanTokensY, if_neg hc] at h ⊢
        obtain ⟨r, hr, hge⟩ := ih (idx + 1) h
        exact ⟨r, hr, by omega⟩

theorem findInRow_found (t : String) (row : List CellVal) :
    ∀ c0 c, findInRow t c0 row = some c → c0 ≤ c := by
  induction row with
  | nil => intro c0 c h; simp [findInRow] at h
  | cons v rest ih =>
      intro c0 c h
      by_cases hc : v = .str t
      · simp only [findInRow, if_pos hc, Option.some.injEq] at h; omega
      · simp only [findInRow, if_neg hc] at h
        have := ih (c0 + 1) c h; omega

theorem findRowsG_found (t : String) (g : Grid) :
    ∀ r0 r c, findRowsG t r0 g = some (r, c) → r0 ≤ r ∧ 1 ≤ c := by
  induction g with
  | nil => intro r0 r c h; simp [findRowsG] at h
  | cons row rest ih =>
      intro r0 r c h
      simp only [findRowsG] at h
      cases hf : findInRow t 1 row with
      | some c2 =>
          rw [hf, Option.some.injEq] at h
          obtain ⟨h1, h2⟩ := Prod.mk.injEq .. ▸ h
          have := findInRow_found t row 1 c2 hf
          omega
      | none =>
          rw [hf] at h
          have := ih (r0 + 1) r c h
          omega

theorem processSpin_exhausted_marks {σ : Type} (B : Backend σ) (t : String)
    (u : User) (k : Nat) (s : σ)
    (hact : (B.check s t).1 = .str "active")
    (hrow : rowTruthy (B.check s t).2.1 = true)
    (hp : B.listPrizes s = .ok []) :
    BCall.markUsed ∈ (processSpin B t u k s).calls ∧
    Msg.noPrizes ∈ (processSpin B t u k s).msgs := by
  simp only [processSpin, hact, hp, hrow, List.isEmpty_nil, if_true,
    eq_self_iff_true]
  cases hm : B.mark (B.check s t) s <;> simp [hm]

theorem checkTokenYandex_active_rowTruthy (wb : Workbook) (t : String)
    (h : (checkTokenYandex wb t).1 = .str "active") :
    rowTruthy (checkTokenYandex wb t).2.1 = true := by
  unfold checkTokenYandex at h ⊢
  cases hl : lookupSheet wb "Tokens" with
  | none =>
      rw [hl] at h
      have h2 : CellVal.empty = CellVal.str "active" := h
      exact absurd h2 (by decide)
  | some g =>
      rw [hl] at h
      have h2 : (scanTokensY t 1 g).1 = .str "active" := h
      have hne : (scanTokensY t 1 g).1 ≠ .empty := by rw [h2]; decide
      obtain ⟨r, hr, hge⟩ := scanTokensY_found t g 1 hne
      show rowTruthy (scanTokensY t 1 g).2.1 = true
      rw [hr]
      simp only [rowTruthy, bne_iff_ne, ne_eq]
      omega

theorem checkTokenGoogle_active_rowTruthy (g : Grid) (t : String)
    (h : (checkTokenGoogle g t).1 = .str "active") :
    rowTruthy (checkTokenGoogle g t).2.1 = true := by
  unfold checkTokenGoogle checkTokenGoogleWithFind at h ⊢
  cases hf : findCellGoogle g t with
  | none =>
      rw [hf] at h
      have h2 : CellVal.empty = CellVal.str "active" := h
      exact absurd h2 (by decide)
  | some rc =>
      obtain ⟨r, c⟩ := rc
      have hfound := findRowsG_found t g 1 r c hf
      show rowTruthy (some r) = true
      simp only [rowTruthy, bne_iff_ne, ne_eq]
      omega

/-- C6: for every redemption of an active token whose draw finds no
available prize, the flow still invokes the mark-token-used operation on
the token's location before it terminates (and notifies "no prizes"), in
both backend variants. -/
theorem c6_exhausted_flow_consumes_token
    (now t t2 : String) (u : User) (k : Nat) (wb : Workbook) (s : GStore)
    (hY : (checkTokenYandex wb t).1 = .str "active")
    (hYp : getPrizesYandex wb = [])
    (hG : (checkTokenGoogle s.tokens t2).1 = .str "active")
    (hGp : getPrizesGoogle s.prizes = []) :
    (BCall.markUsed ∈ (processSpin (yandexBackend now) t u k wb).calls ∧
      Msg.noPrizes ∈ (processSpin (yandexBackend now) t u k wb).msgs) ∧
    (BCall.markUsed ∈ (processSpin (googleBackend now) t2 u k s).calls ∧
      Msg.noPrizes ∈ (processSpin (googleBackend now) t2 u k s).msgs) := by
  constructor
  · exact processSpin_exhausted_marks (yandexBackend now) t u k wb hY
      (checkTokenYandex_active_rowTruthy wb t hY)
      (by simp only [yandexBackend]; rw [hYp])
  · exact processSpin_exhausted_marks (googleBackend now) t2 u k s hG
      (checkTokenGoogle_active_rowTruthy s.tokens t2 hG)
      (by simp only [googleBackend]; rw [hGp])

/-- Witness for C6 at a concrete pair of stores: an active token and a
prize sheet holding only its header row. -/
theorem c6_witness :
    BCall.markUsed ∈
      (processSpin (yandexBackend "ts") "e" ⟨9, none⟩ 0
        [("Tokens", [[.str "e", .str "active"]]),
         ("Prizes", [[.str "ID", .str "Name", .str "Limit", .str "Issued"]])]).calls ∧
    BCall.markUsed ∈
      (processSpin (googleBackend "ts") "e2" ⟨9, none⟩ 0
        ⟨[[.str "e2", .str "active"]],
         [[.str "ID", .str "Name", .str "Limit", .str "Issued"]], []⟩).calls := by
  have h := c6_exhausted_flow_consumes_token "ts" "e" "e2" ⟨9, none⟩ 0
    [("Tokens", [[.str "e", .str "active"]]),
     ("Prizes", [[.str "ID", .str "Name", .str "Limit", .str "Issued"]])]
    ⟨[[.str "e2", .str "active"]],
     [[.str "ID", .str "Name", .str "Limit", .str "Issued"]], []⟩
    (by decide) (by decide) (by decide) (by decide)
  exact ⟨h.1.1, h.2.1⟩

/-- C9: under the blob variant any exception while listing prizes makes
`get_prizes` return the empty list, so a storage failure at the draw step
is indistinguishable from an exhausted pool: the redemption reports
"no prizes" and still consumes the token. -/
theorem c9_listing_failure_reads_as_exhausted
    (now t : String) (u : User) (k : Nat) (wb : Workbook) (e : String)
    (hc : getPrizesYandexCore wb = .error e)
    (hact : (checkTokenYandex wb t).1 = .str "active") :
    getPrizesYandex wb = [] ∧
    Msg.noPrizes ∈ (processSpin (yandexBackend now) t u k wb).msgs ∧
    BCall.markUsed ∈ (processSpin (yandexBackend now) t u k wb).calls := by
  have hempty : getPrizesYandex wb = [] := by unfold getPrizesYandex; rw [hc]
  have h := processSpin_exhausted_marks (yandexBackend now) t u k wb hact
    (checkTokenYandex_active_rowTruthy wb t hact)
    (by simp only [yandexBackend]; rw [hempty])
  exact ⟨hempty, h.2, h.1⟩

/-- Witness for C9: the `Prizes` sheet is missing entirely, so the listing
raises `KeyError`; the flow still reports "no prizes" and consumes the
token. -/
theorem c9_witness :
    getPrizesYandex wbNoPrizes = [] ∧
    Msg.noPrizes ∈ (processSpin (yandexBackend "ts") "t" ⟨5, none⟩ 0 wbNoPrizes).msgs ∧
    BCall.markUsed ∈ (processSpin (yandexBackend "ts") "t" ⟨5, none⟩ 0 wbNoPrizes).calls :=
  c9_listing_failure_reads_as_exhausted "ts" "t" ⟨5, none⟩ 0 wbNoPrizes
    "KeyError" rfl rfl

theorem processSpin_award_failure {σ : Type} (B : Backend σ) (t : String)
    (u : User) (k : Nat) (s : σ) (e : String) (prizes : List PrizeEntry)
    (hact : (B.check s t).1 = .str "active")
    (hp : B.listPrizes s = .ok prizes) (hne : prizes.isEmpty = false)
    (hrec : B.record u (prizes.getD (k % prizes.length) ⟨.empty, .empty, .empty, 0⟩) s
      = .error e) :
    processSpin B t u k s =
      ⟨s, .failed, [.checkToken, .getPrizes, .recordWinner], [.techError], []⟩ := by
  simp only [processSpin, hact, hp, hne, hrec, if_true, eq_self_iff_true,
    Bool.false_eq_true, if_false]

/-- C3 (amended): when the award step fails with a storage error, the
coordinator surfaces a failure notification to the caller but does NOT
attempt finalization — mark-token-used is never invoked and the token
stays unconsumed. -/
theorem c3_award_failure_skips_finalize {σ : Type} (B : Backend σ)
    (t : String) (u : User) (k : Nat) (s : σ) (e : String)
    (prizes : List PrizeEntry)
    (hact : (B.check s t).1 = .str "active")
    (hp : B.listPrizes s = .ok prizes) (hne : prizes.isEmpty = false)
    (hrec : B.record u (prizes.getD (k % prizes.length) ⟨.empty, .empty, .empty, 0⟩) s
      = .error e) :
    (processSpin B t u k s).outcome = .failed ∧
    (processSpin B t u k s).msgs = [Msg.techError] ∧
    BCall.markUsed ∉ (processSpin B t u k s).calls ∧
    (processSpin B t u k s).store = s := by
  rw [processSpin_award_failure B t u k s e prizes hact hp hne hrec]
  refine ⟨rfl, rfl, ?_, rfl⟩
  show BCall.markUsed ∉ [BCall.checkToken, BCall.getPrizes, BCall.recordWinner]
  decide

/-- Witness for the amended C3 at the concrete failing backend. -/
theorem c3_witness :
    (processSpin failingAwardBackend "t" ⟨1, none⟩ 0 ()).outcome = .failed ∧
    BCall.markUsed ∉ (processSpin failingAwardBackend "t" ⟨1, none⟩ 0 ()).calls := by
  have h := c3_award_failure_skips_finalize failingAwardBackend "t" ⟨1, none⟩ 0 ()
    "StorageError" [⟨.str "P", .int 1, .int 0, 2⟩] rfl rfl rfl rfl
  exact ⟨h.1, h.2.2.1⟩

/-- C3 counterexample: a redemption whose award step fails with a storage
error surfaces the failure but never calls mark-token-used, so the claim
that finalization is still attempted is false: here the call log of the
whole flow is exactly check, list, record — no mark. -/
theorem c3_counterexample :
    (processSpin failingAwardBackend "t" ⟨1, none⟩ 0 ()).msgs = [Msg.techError] ∧
    (processSpin failingAwardBackend "t" ⟨1, none⟩ 0 ()).calls
      = [.checkToken, .getPrizes, .recordWinner] ∧
    BCall.markUsed ∉ (processSpin failingAwardBackend "t" ⟨1, none⟩ 0 ()).calls := by
  decide

theorem scanTokensY_props (t : String) (g : Grid) :
    ∀ idx st r c, scanTokensY t idx g = (st, some r, c) →
      idx ≤ r ∧ r - idx < g.length ∧
      (g.getD (r - idx) []).getD 0 .empty = .str t ∧
      st = (g.getD (r - idx) []).getD 1 .empty ∧ c = none ∧
      ∀ j, j < r - idx → (g.getD j []).getD 0 .empty ≠ .str t := by
  induction g with
  | nil => intro idx st r c h; simp [scanTokensY] at h
  | cons row rest ih =>
      intro idx st r c h
      by_cases hc : row.getD 0 .empty = .str t
      · simp only [scanTokensY, if_pos hc, Prod.mk.injEq] at h
        obtain ⟨h1, h2, h3⟩ := h
        rw [Option.some.injEq] at h2
        subst h2
        simp only [Nat.sub_self, List.getD]
        exact ⟨le_refl idx, by simp, hc, h1.symm, h3.symm, fun j hj => by omega⟩
      · simp only [scanTokensY, if_neg hc] at h
        obtain ⟨hge, hlt, hmt, hst, hcn, hbef⟩ := ih (idx + 1) st r c h
        have hsub : r - idx = (r - (idx + 1)) + 1 := by omega
        refine ⟨by omega, by simp only [List.length_cons]; omega, ?_, ?_, hcn, ?_⟩
        · rw [hsub]; simpa using hmt
        · rw [hsub]; simpa using hst
        · intro j hj
          cases j with
          | zero => simpa using hc
          | succ j2 =>
              have : j2 < r - (idx + 1) := by omega
              simpa using hbef j2 this

theorem scanTokensY_of_mem (t : String) (g : Grid) :
    ∀ idx m, m < g.length →
      (g.getD m []).getD 0 .empty = .str t →
      (∀ j, j < m → (g.getD j []).getD 0 .empty ≠ .str t) →
      scanTokensY t idx g = ((g.getD m []).getD 1 .empty, some (idx + m), none) := by
  induction g with
  | nil => intro idx m hm; simp at hm
  | cons row rest ih =>
      intro idx m hm h1 h2
      cases m with
      | zero =>
          have h1b : row.getD 0 .empty = .str t := h1
          show scanTokensY t idx (row :: rest)
            = (((row :: rest).getD 0 []).getD 1 .empty, some (idx + 0), none)
          simp only [scanTokensY, if_pos h1b]
          rfl
      | succ m2 =>
          have hhd : row.getD 0 .empty ≠ .str t := h2 0 (by omega)
          have h1r : (rest.getD m2 []).getD 0 .empty = .str t := h1
          have h2r : ∀ j, j < m2 → (rest.getD j []).getD 0 .empty ≠ .str t :=
            fun j hj => h2 (j + 1) (by omega)
          have hm2 : m2 < rest.length := by
            simp only [List.length_cons] at hm; omega
          show scanTokensY t idx (row :: rest)
            = (((row :: rest).getD (m2 + 1) []).getD 1 .empty, some (idx + (m2 + 1)), none)
          simp only [scanTokensY, if_neg hhd]
          rw [ih (idx + 1) m2 hm2 h1r h2r]
          have harith : idx + 1 + m2 = idx + (m2 + 1) := by omega
          rw [harith]
          rfl

theorem checkTokenYandex_eq_scan (wb : Workbook) (t : String) (g : Grid)
    (hl : lookupSheet wb "Tokens" = some g) :
    checkTokenYandex wb t = scanTokensY t 1 g := by
  unfold checkTokenYandex
  rw [hl]

theorem markTokenUsedYandex_ok (wb wb' : Workbook) (st : CellVal) (r : Nat)
    (c : Option Nat) (h : markTokenUsedYandex (st, some r, c) wb = .ok wb') :
    r ≠ 0 ∧ ∃ gT, lookupSheet wb "Tokens" = some gT ∧
      wb' = updateSheet wb "Tokens" (setCellG gT r 2 (.str "used")) := by
  have h2 : (if r = 0 then (.error "ValueError" : Except String Workbook)
      else match lookupSheet wb "Tokens" with
        | none => .error "KeyError"
        | some gT => .ok (updateSheet wb "Tokens" (setCellG gT r 2 (.str "used"))))
      = .ok wb' := h
  by_cases hr : r = 0
  · rw [if_pos hr] at h2; simp at h2
  · rw [if_neg hr] at h2
    cases hl : lookupSheet wb "Tokens" with
    | none => rw [hl] at h2; simp at h2
    | some gT =>
        rw [hl] at h2
        have h3 : Except.ok (updateSheet wb "Tokens" (setCellG gT r 2 (.str "used")))
            = (Except.ok wb' : Except String Workbook) := h2
        rw [Except.ok.injEq] at h3
        exact ⟨hr, gT, rfl, h3.symm⟩

theorem checkTokenYandex_after_mark (wb wb' : Workbook) (t : String)
    (st st2 : CellVal) (r : Nat) (c c2 : Option Nat)
    (hchk : checkTokenYandex wb t = (st, some r, c))
    (hmark : markTokenUsedYandex (st2, some r, c2) wb = .ok wb') :
    checkTokenYandex wb' t = (.str "used", some r, none) := by
  cases hl : lookupSheet wb "Tokens" with
  | none =>
      have h0 : checkTokenYandex wb t = (.empty, none, none) := by
        unfold checkTokenYandex; rw [hl]
      rw [h0] at hchk
      exact absurd (congrArg (fun x => x.2.1) hchk) (by simp)
  | some g =>
      have hscan : scanTokensY t 1 g = (st, some r, c) := by
        rw [← checkTokenYandex_eq_scan wb t g hl]; exact hchk
      obtain ⟨hge, hlt, hmt, hst, hcn, hbef⟩ := scanTokensY_props t g 1 st r c hscan
      obtain ⟨hr0, gT, hlT, hwb'⟩ := markTokenUsedYandex_ok wb wb' st2 r c2 hmark
      have hgT : gT = g := Option.some.inj (hlT.symm.trans hl)
      subst hgT
      subst hwb'
      have hrow : (setCellG gT r 2 (.str "used")).getD (r - 1) []
          = setRowCell (gT.getD (r - 1) []) 2 (.str "used") := by
        have h5 := getRowG_setCellG_self gT r 2 (.str "used") (by omega)
        unfold getRowG at h5
        rw [padTo_eq_of_le _ (by omega : r ≤ gT.length)] at h5
        exact h5
      have hlup := lookupSheet_updateSheet_self wb "Tokens"
        (setCellG gT r 2 (.str "used")) gT hl
      rw [checkTokenYandex_eq_scan _ t _ hlup]
      have hlen2 : r - 1 < (setCellG gT r 2 (.str "used")).length := by
        unfold setCellG
        rw [List.length_set, padTo_length]
        omega
      have hmt2 : ((setCellG gT r 2 (.str "used")).getD (r - 1) []).getD 0 .empty
          = .str t := by
        rw [hrow, setRowCell_getD_ne _ _ (by omega : 2 - 1 ≠ 0)]
        exact hmt
      have hbef2 : ∀ j, j < r - 1 →
          ((setCellG gT r 2 (.str "used")).getD j []).getD 0 .empty ≠ .str t := by
        intro j hj
        have hrg := getRowG_setCellG_ne gT 2 (.str "used")
          (by omega : r ≠ j + 1) (by omega) (by omega)
        unfold getRowG at hrg
        have hj1 : j + 1 - 1 = j := by omega
        rw [hj1] at hrg
        rw [hrg]
        exact hbef j hj
      rw [scanTokensY_of_mem t _ 1 (r - 1) hlen2 hmt2 hbef2]
      rw [hrow, setRowCell_getD_self _ 2 _ (by omega)]
      have h1r : 1 + (r - 1) = r := by omega
      rw [h1r]

/-- C2 counterexample: two concurrent redemption requests for the same
token value "t" (limit-2 prize pool), interleaved so that the second
validates while the first is in flight.  The second request is NOT
rejected: it performs backend calls, reaches awarding, and TWO
WinnerRecords end up appended — refuting "rejected immediately without
any backend call" and "exactly one WinnerRecord is appended". -/
theorem c2_counterexample :
    winnersCountY (twoFlowRun (yandexBackend "ts") "t" "t" ⟨1, some "a"⟩
      ⟨2, some "b"⟩ 0 0 [false, true, false, false, false, true, true, true]
      ⟨wbTwo, .ready, .ready⟩).store = 2 ∧
    (twoFlowRun (yandexBackend "ts") "t" "t" ⟨1, some "a"⟩ ⟨2, some "b"⟩
      0 0 [false, true, false, false, false, true, true, true]
      ⟨wbTwo, .ready, .ready⟩).ph1 = .done (.awarded (.str "P")) := by
  constructor
  · rfl
  · rfl

/-- C2 (amended): the coordinator has no in-process per-token exclusion;
a second redemption request for the same token value is rejected only when
its validation runs after the first flow has consumed the token.  In that
case the token now reads `used`, the second request is rejected at
validation with no further backend call and no store mutation (hence no
WinnerRecord of its own); two requests that both validate before either
consumes can instead both reach awarding (see the counterexample). -/
theorem c2_second_request_rejected_only_after_consume
    (now t : String) (u : User) (k : Nat) (wb wb' : Workbook)
    (st st2 : CellVal) (r : Nat) (c c2 : Option Nat)
    (hchk : checkTokenYandex wb t = (st, some r, c))
    (hmark : markTokenUsedYandex (st2, some r, c2) wb = .ok wb') :
    checkTokenYandex wb' t = (.str "used", some r, none) ∧
    processSpin (yandexBackend now) t u k wb' =
      ⟨wb', .rejected, [.checkToken], [.inactive], []⟩ := by
  have hck := checkTokenYandex_after_mark wb wb' t st st2 r c c2 hchk hmark
  refine ⟨hck, ?_⟩
  have hck1 : ((yandexBackend now).check wb' t).1 = .str "used" := by
    show (checkTokenYandex wb' t).1 = .str "used"
    rw [hck]
  simp only [processSpin, hck1]
  rw [if_neg (by decide : ¬CellVal.str "used" = CellVal.str "active")]

/-- Witness for the amended C2: after the first flow consumed token "t"
(the store now holds status `used`), a second request is rejected at
validation and makes no further call. -/
theorem c2_witness :
    checkTokenYandex
      [("Tokens", [[.str "t", .str "used"]]),
       ("Prizes", [[.str "ID", .str "Name", .str "Limit", .str "Issued"],
                   [.str "1", .str "P", .int 2, .int 0]])] "t"
      = (.str "used", some 1, none) ∧
    (processSpin (yandexBackend "ts") "t" ⟨3, none⟩ 0
      [("Tokens", [[.str "t", .str "used"]]),
       ("Prizes", [[.str "ID", .str "Name", .str "Limit", .str "Issued"],
                   [.str "1", .str "P", .int 2, .int 0]])]).outcome
      = .rejected := by
  have h := c2_second_request_rejected_only_after_consume "ts" "t" ⟨3, none⟩ 0
    wbTwo
    [("Tokens", [[.str "t", .str "used"]]),
     ("Prizes", [[.str "ID", .str "Name", .str "Limit", .str "Issued"],
                 [.str "1", .str "P", .int 2, .int 0]])]
    (.str "active") (.str "active") 1 none none rfl rfl
  exact ⟨h.1, by rw [h.2]⟩

/-- C4: invoking markTokenUsed twice in succession on the same location
never raises and the second call is a no-op, in both variants: the
row-oriented variant is a total function and rewriting `'used'` leaves the
grid unchanged; in the blob variant, whenever the first call succeeds the
second call succeeds and returns the same store. -/
theorem c4_mark_twice_idempotent :
    (∀ (g : Grid) (td : TokenData),
        markTokenUsedGoogle td (markTokenUsedGoogle td g)
          = markTokenUsedGoogle td g) ∧
    (∀ (wb wb' : Workbook) (td : TokenData),
        markTokenUsedYandex td wb = .ok wb' →
        markTokenUsedYandex td wb' = .ok wb') := by
  constructor
  · intro g td
    obtain ⟨st, ro, co⟩ := td
    cases ro with
    | none => rfl
    | some r =>
        cases co with
        | none => rfl
        | some c =>
            simp only [markTokenUsedGoogle]
            by_cases hrc : (r != 0 && c != 0) = true
            · obtain ⟨h1, h2⟩ := Bool.and_eq_true .. ▸ hrc
              rw [if_pos hrc, if_pos hrc]
              refine setCellG_idem g r c _ ?_
              simp only [bne_iff_ne, ne_eq] at h1
              omega
            · rw [if_neg hrc, if_neg hrc]
  · intro wb wb' td hm
    obtain ⟨st, ro, co⟩ := td
    cases ro with
    | none =>
        have h0 : (Except.error "TypeError" : Except String Workbook)
            = .ok wb' := hm
        simp at h0
    | some r =>
        obtain ⟨hr0, gT, hlT, hwb'⟩ := markTokenUsedYandex_ok wb wb' st r co hm
        subst hwb'
        have hl2 := lookupSheet_updateSheet_self wb "Tokens"
          (setCellG gT r 2 (.str "used")) gT hlT
        show (if r = 0 then (.error "ValueError" : Except String Workbook)
          else match lookupSheet (updateSheet wb "Tokens"
              (setCellG gT r 2 (.str "used"))) "Tokens" with
            | none => .error "KeyError"
            | some gT2 => .ok (updateSheet (updateSheet wb "Tokens"
                (setCellG gT r 2 (.str "used"))) "Tokens"
                (setCellG gT2 r 2 (.str "used"))))
          = .ok (updateSheet wb "Tokens" (setCellG gT r 2 (.str "used")))
        rw [if_neg hr0, hl2]
        show Except.ok (updateSheet (updateSheet wb "Tokens"
            (setCellG gT r 2 (.str "used"))) "Tokens"
            (setCellG (setCellG gT r 2 (.str "used")) r 2 (.str "used")))
          = .ok (updateSheet wb "Tokens" (setCellG gT r 2 (.str "used")))
        rw [setCellG_idem gT r 2 _ (by omega), updateSheet_updateSheet]

/-- Witness for C4: concrete double invocations in both variants. -/
theorem c4_witness :
    markTokenUsedGoogle (.str "active", some 1, some 2)
      (markTokenUsedGoogle (.str "active", some 1, some 2)
        [[.str "w", .str "active"]])
      = markTokenUsedGoogle (.str "active", some 1, some 2)
        [[.str "w", .str "active"]] ∧
    markTokenUsedYandex (.str "active", some 1, none)
      [("Tokens", [[.str "w", .str "used"]])]
      = .ok [("Tokens", [[.str "w", .str "used"]])] := by
  constructor
  · exact c4_mark_twice_idempotent.1 [[.str "w", .str "active"]]
      (.str "active", some 1, some 2)
  · exact c4_mark_twice_idempotent.2 [("Tokens", [[.str "w", .str "active"]])]
      [("Tokens", [[.str "w", .str "used"]])] (.str "active", some 1, none) rfl

theorem recordWinnerYandex_ok (now : String) (u : User) (p : PrizeEntry)
    (wb wb' : Workbook) (gP : Grid) (m : Int)
    (hP : lookupSheet wb "Prizes" = some gP)
    (hm : currOrZero (getCellG gP p.rowIdx 4) = .ok m)
    (h : recordWinnerYandex now u p wb = .ok wb') :
    lookupSheet wb' "Prizes" = some (setCellG gP p.rowIdx 4 (.int (m + 1))) := by
  unfold recordWinnerYandex at h
  rw [hP] at h
  have h2 : (currOrZero (getCellG gP p.rowIdx 4)).bind (fun curr =>
      Except.ok (updateSheet (ensureSheet (updateSheet wb "Prizes"
        (setCellG gP p.rowIdx 4 (.int (curr + 1)))) "Winners") "Winners"
        ((lookupSheet (ensureSheet (updateSheet wb "Prizes"
          (setCellG gP p.rowIdx 4 (.int (curr + 1)))) "Winners") "Winners").getD []
          ++ [winnerRow now u p.name]))) = .ok wb' := h
  rw [hm] at h2
  have h3 : Except.ok (updateSheet (ensureSheet (updateSheet wb "Prizes"
      (setCellG gP p.rowIdx 4 (.int (m + 1)))) "Winners") "Winners"
      ((lookupSheet (ensureSheet (updateSheet wb "Prizes"
        (setCellG gP p.rowIdx 4 (.int (m + 1)))) "Winners") "Winners").getD []
        ++ [winnerRow now u p.name])) = (Except.ok wb' : Except String Workbook) := h2
  rw [Except.ok.injEq] at h3
  rw [← h3]
  rw [lookupSheet_updateSheet_ne _ _ (by decide : "Prizes" ≠ "Winners")]
  rw [lookupSheet_ensureSheet_ne _ (by decide : "Prizes" ≠ "Winners")]
  exact lookupSheet_updateSheet_self wb "Prizes" _ gP hP

theorem recordWinnerGoogle_ok (now : String) (u : User) (p : PrizeEntry)
    (s s' : GStore) (i : Int)
    (hi : pyInt p.issuedVal = .ok i)
    (h : recordWinnerGoogle now u p s = .ok s') :
    s'.prizes = setCellG s.prizes p.rowIdx 4 (.int (i + 1)) := by
  unfold recordWinnerGoogle at h
  have h2 : (pyInt p.issuedVal).bind (fun i2 =>
      Except.ok (GStore.mk s.tokens (setCellG s.prizes p.rowIdx 4 (.int (i2 + 1)))
        (s.winners ++ [winnerRow now u p.name]))) = .ok s' := h
  rw [hi] at h2
  have h3 : Except.ok (GStore.mk s.tokens (setCellG s.prizes p.rowIdx 4 (.int (i + 1)))
      (s.winners ++ [winnerRow now u p.name]))
      = (Except.ok s' : Except String GStore) := h2
  rw [Except.ok.injEq] at h3
  rw [← h3]

/-- C10: the row-oriented variant writes the issued counter as (snapshot
captured by the earlier listing) + 1, so two awards of the same prize from
the same listing snapshot leave the stored counter at snapshot + 1 (the
second write overwrites the first; total rise 1); the blob variant
re-reads the current value and writes current + 1, so the same double
award leaves the counter at current + 2. -/
theorem c10_google_snapshot_vs_yandex_reread
    (now : String) (u : User) (p : PrizeEntry) (s s1 s2 : GStore)
    (wb wb1 wb2 : Workbook) (gP : Grid) (i m : Int)
    (hr : 1 ≤ p.rowIdx)
    (hi : pyInt p.issuedVal = .ok i)
    (hg1 : recordWinnerGoogle now u p s = .ok s1)
    (hg2 : recordWinnerGoogle now u p s1 = .ok s2)
    (hP : lookupSheet wb "Prizes" = some gP)
    (hm : currOrZero (getCellG gP p.rowIdx 4) = .ok m) (hm0 : 0 ≤ m)
    (hy1 : recordWinnerYandex now u p wb = .ok wb1)
    (hy2 : recordWinnerYandex now u p wb1 = .ok wb2) :
    getCellG s2.prizes p.rowIdx 4 = .int (i + 1) ∧
    ∃ gP2, lookupSheet wb2 "Prizes" = some gP2 ∧
      getCellG gP2 p.rowIdx 4 = .int (m + 2) := by
  constructor
  · rw [recordWinnerGoogle_ok now u p s1 s2 i hi hg2]
    exact getCellG_setCellG_self s1.prizes p.rowIdx 4 _ hr (by omega)
  · have hP1 := recordWinnerYandex_ok now u p wb wb1 gP m hP hm hy1
    have hcell1 : getCellG (setCellG gP p.rowIdx 4 (.int (m + 1))) p.rowIdx 4
        = .int (m + 1) :=
      getCellG_setCellG_self gP p.rowIdx 4 _ hr (by omega)
    have hcz : currOrZero (getCellG (setCellG gP p.rowIdx 4 (.int (m + 1)))
        p.rowIdx 4) = .ok (m + 1) := by
      rw [hcell1]
      unfold currOrZero
      rw [if_pos (by simp only [CellVal.truthy, bne_iff_ne, ne_eq]; omega)]
      rfl
    have hP2 := recordWinnerYandex_ok now u p wb1 wb2
      (setCellG gP p.rowIdx 4 (.int (m + 1))) (m + 1) hP1 hcz hy2
    refine ⟨setCellG (setCellG gP p.rowIdx 4 (.int (m + 1))) p.rowIdx 4
      (.int (m + 1 + 1)), hP2, ?_⟩
    rw [getCellG_setCellG_self _ p.rowIdx 4 _ hr (by omega)]
    have harith : m + 1 + 1 = m + 2 := by omega
    rw [harith]

/-- Witness for C10: a prize with limit 3 and issued 0; two awards from
the same snapshot leave issued = 1 under the row variant and issued = 2
under the blob variant. -/
theorem c10_witness :
    getCellG (GStore.mk []
      [[.str "ID", .str "Name", .str "Limit", .str "Issued"],
       [.str "1", .str "P", .int 3, .int 1]]
      [[.str "ts", .str "7", .str "NoUsername", .str "P"],
       [.str "ts", .str "7", .str "NoUsername", .str "P"]]).prizes 2 4
      = .int 1 ∧
    ∃ gP2, lookupSheet
      [("Prizes",
        [[.str "ID", .str "Name", .str "Limit", .str "Issued"],
         [.str "1", .str "P", .int 3, .int 2]]),
       ("Winners",
        [[.str "ts", .str "7", .str "NoUsername", .str "P"],
         [.str "ts", .str "7", .str "NoUsername", .str "P"]])] "Prizes"
      = some gP2 ∧ getCellG gP2 2 4 = .int 2 := by
  have h := c10_google_snapshot_vs_yandex_reread "ts" ⟨7, none⟩
    ⟨.str "P", .int 3, .int 0, 2⟩
    ⟨[], [[.str "ID", .str "Name", .str "Limit", .str "Issued"],
          [.str "1", .str "P", .int 3, .int 0]], []⟩
    ⟨[], [[.str "ID", .str "Name", .str "Limit", .str "Issued"],
          [.str "1", .str "P", .int 3, .int 1]],
        [[.str "ts", .str "7", .str "NoUsername", .str "P"]]⟩
    ⟨[], [[.str "ID", .str "Name", .str "Limit", .str "Issued"],
          [.str "1", .str "P", .int 3, .int 1]],
        [[.str "ts", .str "7", .str "NoUsername", .str "P"],
         [.str "ts", .str "7", .str "NoUsername", .str "P"]]⟩
    [("Prizes", [[.str "ID", .str "Name", .str "Limit", .str "Issued"],
                 [.str "1", .str "P", .int 3, .int 0]])]
    [("Prizes", [[.str "ID", .str "Name", .str "Limit", .str "Issued"],
                 [.str "1", .str "P", .int 3, .int 1]]),
     ("Winners", [[.str "ts", .str "7", .str "NoUsername", .str "P"]])]
    [("Prizes", [[.str "ID", .str "Name", .str "Limit", .str "Issued"],
                 [.str "1", .str "P", .int 3, .int 2]]),
     ("Winners", [[.str "ts", .str "7", .str "NoUsername", .str "P"],
                  [.str "ts", .str "7", .str "NoUsername", .str "P"]])]
    [[.str "ID", .str "Name", .str "Limit", .str "Issued"],
     [.str "1", .str "P", .int 3, .int 0]]
    0 0 (by decide) rfl rfl rfl rfl rfl (by decide) rfl rfl
  exact h

theorem googleRecsFrom_eq_spec :
    ∀ (rows : List (List CellVal)) (idx : Nat),
      googleRecsFrom idx rows = specListAvailable idx rows := by
  intro rows
  induction rows with
  | nil => intro idx; rfl
  | cons row rest ih =>
      intro idx
      simp only [googleRecsFrom, specListAvailable]
      cases h2 : pyInt (row.getD 2 .empty) with
      | error e => simp [ih]
      | ok l =>
          cases h3 : pyInt (row.getD 3 .empty) with
          | error e => simp [ih]
          | ok i =>
              by_cases hpos : l - i > 0
              · simp [if_pos hpos, ih]
              · simp [if_neg hpos, ih]

theorem prizesFrom_ok_eq_filter :
    ∀ (rows : List (List CellVal)) (idx : Nat) (l : List PrizeEntry),
      prizesFrom idx rows = .ok l → l = yandexRowFilter idx rows := by
  intro rows
  induction rows with
  | nil =>
      intro idx l h
      simp only [prizesFrom, Except.ok.injEq] at h
      rw [← h]; rfl
  | cons row rest ih =>
      intro idx l h
      by_cases hs : prizeRowShape row = true
      · simp only [prizesFrom, if_pos hs] at h
        simp only [yandexRowFilter, if_pos hs]
        cases h2 : pyInt (row.getD 2 .empty) with
        | error e => rw [h2] at h; simp at h
        | ok lim =>
            rw [h2] at h
            cases h3 : pyInt (issuedCellOf row) with
            | error e => rw [h3] at h; simp at h
            | ok iss =>
                rw [h3] at h
                cases h4 : prizesFrom (idx + 1) rest with
                | error e => rw [h4] at h; simp at h
                | ok tail =>
                    rw [h4] at h
                    have h5 : (if lim - iss > 0 then
                        Except.ok (PrizeEntry.mk (row.getD 1 .empty)
                          (row.getD 2 .empty) (issuedCellOf row) idx :: tail)
                        else (Except.ok tail : Except String (List PrizeEntry)))
                        = .ok l := h
                    have htail := ih (idx + 1) tail h4
                    show l = (if lim - iss > 0 then
                        (PrizeEntry.mk (row.getD 1 .empty) (row.getD 2 .empty)
                          (issuedCellOf row) idx :: yandexRowFilter (idx + 1) rest)
                        else yandexRowFilter (idx + 1) rest)
                    by_cases hpos : lim - iss > 0
                    · rw [if_pos hpos] at h5
                      rw [Except.ok.injEq] at h5
                      rw [if_pos hpos, ← h5, htail]
                    · rw [if_neg hpos] at h5
                      rw [Except.ok.injEq] at h5
                      rw [if_neg hpos, ← h5, htail]
      · simp only [prizesFrom, if_neg hs] at h
        simp only [yandexRowFilter, if_neg hs]
        exact ih (idx + 1) l h

theorem prizesFrom_error_of_bad_row :
    ∀ (rows : List (List CellVal)) (idx : Nat) (row : List CellVal),
      row ∈ rows → prizeRowShape row = true →
      (exOk (pyInt (row.getD 2 .empty)) = false ∨
        exOk (pyInt (issuedCellOf row)) = false) →
      ∃ e, prizesFrom idx rows = .error e := by
  intro rows
  induction rows with
  | nil => intro idx row hmem; simp at hmem
  | cons r0 rest ih =>
      intro idx row hmem hs hbad
      rcases List.mem_cons.mp hmem with heq | htl
      · subst heq
        simp only [prizesFrom, if_pos hs]
        cases h2 : pyInt (row.getD 2 .empty) with
        | error e => exact ⟨e, rfl⟩
        | ok lim =>
            cases h3 : pyInt (issuedCellOf row) with
            | error e => exact ⟨e, rfl⟩
            | ok iss =>
                exfalso
                rcases hbad with hb | hb
                · rw [h2] at hb; simp [exOk] at hb
                · rw [h3] at hb; simp [exOk] at hb
      · by_cases hs0 : prizeRowShape r0 = true
        · simp only [prizesFrom, if_pos hs0]
          obtain ⟨e, he⟩ := ih (idx + 1) row htl hs hbad
          cases h2 : pyInt (r0.getD 2 .empty) with
          | error e2 => exact ⟨e2, rfl⟩
          | ok lim =>
              cases h3 : pyInt (issuedCellOf r0) with
              | error e2 => exact ⟨e2, rfl⟩
              | ok iss =>
                  rw [he]
                  exact ⟨e, rfl⟩
        · simp only [prizesFrom, if_neg hs0]
          exact ih (idx + 1) row htl hs hbad

/-- C5 counterexample: under the blob variant, one row whose limit cell
fails to parse as an integer ("x") empties the ENTIRE listing — the
well-formed available row "A" disappears too, refuting "skipped
individually ... does not affect other rows" for this variant (the
spec-reading of the listing still returns row "A"). -/
theorem c5_counterexample :
    getPrizesYandex wbBadQuota = [] ∧
    specListAvailable 2 (((lookupSheet wbBadQuota "Prizes").getD []).drop 1)
      = [⟨.str "A", .int 5, .int 0, 2⟩] := by
  constructor
  · rfl
  · rfl

/-- C5 (amended): the row-oriented variant returns exactly the rows whose
quota cells parse as integers with limit - issued > 0, skipping
unparsable rows individually; the blob variant first drops rows failing
its shape precondition (nonempty name, present limit cell) individually,
and when the whole loop parses it returns the per-row filtered list — but
if any shaped row's quota cells fail to parse as integers the entire
listing comes back empty. -/
theorem c5_listing_per_row_vs_collective :
    (∀ g : Grid, getPrizesGoogle g = specListAvailable 2 (g.drop 1)) ∧
    (∀ (wb : Workbook) (gP : Grid) (l : List PrizeEntry),
        lookupSheet wb "Prizes" = some gP →
        getPrizesYandexCore wb = .ok l →
        getPrizesYandex wb = yandexRowFilter 2 (gP.drop 1)) ∧
    (∀ (wb : Workbook) (gP : Grid) (row : List CellVal),
        lookupSheet wb "Prizes" = some gP →
        row ∈ gP.drop 1 → prizeRowShape row = true →
        (exOk (pyInt (row.getD 2 .empty)) = false ∨
          exOk (pyInt (issuedCellOf row)) = false) →
        getPrizesYandex wb = []) := by
  refine ⟨?_, ?_, ?_⟩
  · intro g
    exact googleRecsFrom_eq_spec (g.drop 1) 2
  · intro wb gP l hP hok
    have hcore : prizesFrom 2 (gP.drop 1) = .ok l := by
      unfold getPrizesYandexCore at hok
      rw [hP] at hok
      exact hok
    unfold getPrizesYandex getPrizesYandexCore
    rw [hP]
    show (match prizesFrom 2 (gP.drop 1) with
      | .ok l2 => l2
      | .error _ => []) = yandexRowFilter 2 (gP.drop 1)
    rw [hcore]
    exact prizesFrom_ok_eq_filter (gP.drop 1) 2 l hcore
  · intro wb gP row hP hmem hs hbad
    obtain ⟨e, he⟩ := prizesFrom_error_of_bad_row (gP.drop 1) 2 row hmem hs hbad
    unfold getPrizesYandex getPrizesYandexCore
    rw [hP]
    show (match prizesFrom 2 (gP.drop 1) with
      | .ok l2 => l2
      | .error _ => []) = []
    rw [he]

/-- Witness for the amended C5: the row variant agrees with the
per-row-skip reading on a concrete sheet, and the blob variant returns
the empty listing because of the single unparsable quota cell. -/
theorem c5_witness :
    getPrizesGoogle [[.str "ID", .str "Name", .str "Limit", .str "Issued"],
      [.str "1", .str "A", .int 5, .int 0]]
      = specListAvailable 2 [[.str "1", .str "A", .int 5, .int 0]] ∧
    getPrizesYandex wbBadQuota = [] := by
  constructor
  · exact c5_listing_per_row_vs_collective.1
      [[.str "ID", .str "Name", .str "Limit", .str "Issued"],
       [.str "1", .str "A", .int 5, .int 0]]
  · exact c5_listing_per_row_vs_collective.2.2 wbBadQuota
      [[.str "ID", .str "Name", .str "Limit", .str "Issued"],
       [.str "1", .str "A", .int 5, .int 0],
       [.str "2", .str "B", .str "x", .int 0]]
      [.str "2", .str "B", .str "x", .int 0]
      rfl (by decide) (by decide) (Or.inl (by decide))

theorem findInRow_none_of_not_mem (t : String) :
    ∀ (row : List CellVal), CellVal.str t ∉ row →
      ∀ c0, findInRow t c0 row = none := by
  intro row
  induction row with
  | nil => intro _ c0; rfl
  | cons v rest ih =>
      intro h c0
      have hv : ¬v = CellVal.str t := by
        intro he
        exact h (by rw [← he]; exact List.mem_cons_self v rest)
      simp only [findInRow, if_neg hv]
      exact ih (fun hm => h (List.mem_cons_of_mem v hm)) (c0 + 1)

theorem findRowsG_append_left (t : String) :
    ∀ (a b : Grid) (r0 : Nat), (∀ row ∈ a, CellVal.str t ∉ row) →
      findRowsG t r0 (a ++ b) = findRowsG t (r0 + a.length) b := by
  intro a
  induction a with
  | nil => intro b r0 _; rfl
  | cons row rest ih =>
      intro b r0 h
      have hrow := findInRow_none_of_not_mem t row
        (h row (List.mem_cons_self row rest)) 1
      simp only [List.cons_append, findRowsG]
      rw [hrow]
      show findRowsG t (r0 + 1) (rest ++ b)
        = findRowsG t (r0 + (row :: rest).length) b
      rw [ih b (r0 + 1) (fun r2 hm => h r2 (List.mem_cons_of_mem row hm))]
      have harith : r0 + 1 + rest.length = r0 + (row :: rest).length := by
        simp only [List.length_cons]; omega
      rw [harith]

theorem findRowsG_token_rows (t : String) (hne : t ≠ "active") :
    ∀ (ts : List String) (r0 : Nat), t ∈ ts →
      ∃ j, j < ts.length ∧ ts.getD j "" = t ∧
        findRowsG t r0 (ts.map (fun x => [CellVal.str x, CellVal.str "active"]))
          = some (r0 + j, 1) := by
  intro ts
  induction ts with
  | nil => intro r0 h; simp at h
  | cons t0 rest ih =>
      intro r0 hmem
      by_cases h0 : t0 = t
      · refine ⟨0, by simp, by simpa using h0, ?_⟩
        simp only [List.map_cons, findRowsG, findInRow]
        rw [if_pos (by rw [h0])]
        rfl
      · have hmem2 : t ∈ rest := by
          rcases List.mem_cons.mp hmem with he | hm
          · exact absurd he.symm h0
          · exact hm
        obtain ⟨j, hj, hjt, hfind⟩ := ih (r0 + 1) hmem2
        refine ⟨j + 1, by simp only [List.length_cons]; omega,
          by simpa using hjt, ?_⟩
        have hc1 : ¬(CellVal.str t0 = CellVal.str t) := by simpa using h0
        have hc2 : ¬(CellVal.str "active" = CellVal.str t) := by
          simpa using fun he => hne he.symm
        simp only [List.map_cons, findRowsG, findInRow, if_neg hc1, if_neg hc2]
        show findRowsG t (r0 + 1)
            (rest.map (fun x => [CellVal.str x, CellVal.str "active"]))
          = some (r0 + (j + 1), 1)
        rw [hfind]
        have harith : r0 + 1 + j = r0 + (j + 1) := by omega
        rw [harith]

theorem scanTokensY_append_left (t : String) :
    ∀ (a b : Grid) (idx : Nat), (∀ row ∈ a, row.getD 0 .empty ≠ .str t) →
      scanTokensY t idx (a ++ b) = scanTokensY t (idx + a.length) b := by
  intro a
  induction a with
  | nil => intro b idx _; rfl
  | cons row rest ih =>
      intro b idx h
      have h0 := h row (List.mem_cons_self row rest)
      simp only [List.cons_append, scanTokensY, if_neg h0]
      show scanTokensY t (idx + 1) (rest ++ b)
        = scanTokensY t (idx + (row :: rest).length) b
      rw [ih b (idx + 1) (fun r2 hm => h r2 (List.mem_cons_of_mem row hm))]
      have harith : idx + 1 + rest.length = idx + (row :: rest).length := by
        simp only [List.length_cons]; omega
      rw [harith]

theorem scanTokensY_token_rows (t : String) :
    ∀ (ts : List String) (idx : Nat), t ∈ ts →
      ∃ j, j < ts.length ∧
        scanTokensY t idx (ts.map (fun x => [CellVal.str x, CellVal.str "active"]))
          = (.str "active", some (idx + j), none) := by
  intro ts
  induction ts with
  | nil => intro idx h; simp at h
  | cons t0 rest ih =>
      intro idx hmem
      by_cases h0 : t0 = t
      · refine ⟨0, by simp, ?_⟩
        simp only [List.map_cons, scanTokensY]
        rw [if_pos (by rw [h0]; rfl)]
        rfl
      · have hmem2 : t ∈ rest := by
          rcases List.mem_cons.mp hmem with he | hm
          · exact absurd he.symm h0
          · exact hm
        obtain ⟨j, hj, hscan⟩ := ih (idx + 1) hmem2
        refine ⟨j + 1, by simp only [List.length_cons]; omega, ?_⟩
        have hc : ¬(List.getD [CellVal.str t0, CellVal.str "active"] 0 CellVal.empty
            = CellVal.str t) := by
          show ¬(CellVal.str t0 = CellVal.str t)
          simpa using h0
        simp only [List.map_cons, scanTokensY, if_neg hc]
        rw [hscan]
        have harith : idx + 1 + j = idx + (j + 1) := by omega
        rw [harith]

/-- C7 counterexample: on an empty store, adding the token batch
["a", "active"] and then checking token "active" (which was NOT previously
present anywhere in the store) does not return `active`: the row variant's
`find` scans the whole worksheet, hits the status cell of token "a" first,
and reads the blank cell next to it as the status. -/
theorem c7_counterexample :
    checkTokenGoogle (addTokensGoogle ["a", "active"] ([] : Grid)) "active"
      = (.empty, some 1, some 3) ∧
    CellVal.empty ≠ CellVal.str "active" := by
  exact ⟨rfl, by decide⟩

/-- C7 (amended): after `addTokens([t1,...,tn])`, `checkStatus(ti)` returns
`active` with a usable location in both variants, provided each checked
token was not previously present in the store AND (for the row-oriented
variant, whose `find` scans every cell of the worksheet) the token differs
from the status literal `'active'` that the add itself writes. -/
theorem c7_add_then_check_active (g : Grid) (wb : Workbook) (ts : List String)
    (t : String) (hmem : t ∈ ts)
    (hG : ∀ row ∈ g, CellVal.str t ∉ row)
    (hGa : t ≠ "active")
    (hY : ∀ row ∈ (lookupSheet wb "Tokens").getD [],
      row.getD 0 .empty ≠ .str t) :
    (∃ r c, checkTokenGoogle (addTokensGoogle ts g) t
        = (.str "active", some r, some c) ∧ 1 ≤ r ∧ 2 ≤ c) ∧
    (∃ r, checkTokenYandex (addTokensYandex ts wb) t
        = (.str "active", some r, none) ∧ 1 ≤ r) := by
  constructor
  · obtain ⟨j, hj, hjt, hfind⟩ :=
      findRowsG_token_rows t hGa ts (1 + g.length) hmem
    have hfull : findCellGoogle (addTokensGoogle ts g) t
        = some (1 + g.length + j, 1) := by
      unfold findCellGoogle addTokensGoogle
      rw [findRowsG_append_left t g _ 1 hG]
      exact hfind
    have hrow : getRowG (addTokensGoogle ts g) (1 + g.length + j)
        = [CellVal.str t, CellVal.str "active"] := by
      unfold addTokensGoogle getRowG
      have hidx : 1 + g.length + j - 1 = g.length + j := by omega
      rw [hidx, List.getD_eq_getElem?_getD,
        List.getElem?_append_right (by omega : g.length ≤ g.length + j)]
      have hsub : g.length + j - g.length = j := by omega
      rw [hsub, List.getElem?_map, List.getElem?_eq_getElem hj]
      have hjt2 : ts[j] = t := by
        rw [← List.getD_eq_getElem ts "" hj]; exact hjt
      rw [hjt2]
      rfl
    have hcell : getCellG (addTokensGoogle ts g) (1 + g.length + j) 2
        = .str "active" := by
      unfold getCellG
      rw [hrow]
      rfl
    refine ⟨1 + g.length + j, 2, ?_, by omega, by omega⟩
    unfold checkTokenGoogle checkTokenGoogleWithFind
    rw [hfull]
    show (getCellG (addTokensGoogle ts g) (1 + g.length + j) 2,
      some (1 + g.length + j), some 2)
      = (.str "active", some (1 + g.length + j), some 2)
    rw [hcell]
  · obtain ⟨j, hj, hscan⟩ := scanTokensY_token_rows t ts
      (1 + ((lookupSheet wb "Tokens").getD []).length) hmem
    have hlook1 : lookupSheet (ensureSheet wb "Tokens") "Tokens"
        = some ((lookupSheet wb "Tokens").getD []) :=
      lookupSheet_ensureSheet_self wb "Tokens"
    have hlookFinal : lookupSheet (addTokensYandex ts wb) "Tokens"
        = some ((lookupSheet wb "Tokens").getD []
            ++ ts.map (fun x => [CellVal.str x, CellVal.str "active"])) := by
      show lookupSheet (updateSheet (ensureSheet wb "Tokens") "Tokens"
        ((lookupSheet (ensureSheet wb "Tokens") "Tokens").getD []
          ++ ts.map (fun x => [CellVal.str x, CellVal.str "active"]))) "Tokens"
        = some ((lookupSheet wb "Tokens").getD []
            ++ ts.map (fun x => [CellVal.str x, CellVal.str "active"]))
      rw [hlook1, Option.getD_some]
      exact lookupSheet_updateSheet_self (ensureSheet wb "Tokens") "Tokens" _
        ((lookupSheet wb "Tokens").getD []) hlook1
    refine ⟨1 + ((lookupSheet wb "Tokens").getD []).length + j, ?_, by omega⟩
    rw [checkTokenYandex_eq_scan _ t _ hlookFinal]
    rw [scanTokensY_append_left t ((lookupSheet wb "Tokens").getD []) _ 1 hY]
    exact hscan

/-- Witness for the amended C7 at a fresh empty store and batch ["tok"]. -/
theorem c7_witness :
    (∃ r c, checkTokenGoogle (addTokensGoogle ["tok"] ([] : Grid)) "tok"
        = (.str "active", some r, some c) ∧ 1 ≤ r ∧ 2 ≤ c) ∧
    (∃ r, checkTokenYandex (addTokensYandex ["tok"] ([] : Workbook)) "tok"
        = (.str "active", some r, none) ∧ 1 ≤ r) :=
  c7_add_then_check_active [] [] ["tok"] "tok" (by simp) (by simp)
    (by decide) (by simp [lookupSheet])

theorem scanTokensY_of_absent (t : String) (g : Grid) (idx : Nat)
    (h : ∀ row ∈ g, row.getD 0 .empty ≠ .str t) :
    scanTokensY t idx g = (.empty, none, none) := by
  have h2 := scanTokensY_append_left t g [] idx h
  rw [List.append_nil] at h2
  rw [h2]
  rfl

theorem scanTokensY_present (t : String) :
    ∀ (g : Grid) (idx : Nat), (∃ row ∈ g, row.getD 0 .empty = .str t) →
      ∃ st r, scanTokensY t idx g = (st, some r, none) ∧ idx ≤ r := by
  intro g
  induction g with
  | nil =>
      intro idx h
      obtain ⟨row, hm, _⟩ := h
      simp at hm
  | cons r0 rest ih =>
      intro idx h
      obtain ⟨row, hm, he⟩ := h
      by_cases h0 : r0.getD 0 .empty = .str t
      · exact ⟨r0.getD 1 .empty, idx,
          by simp only [scanTokensY, if_pos h0], le_refl idx⟩
      · rcases List.mem_cons.mp hm with heq | htl
        · subst heq; exact absurd he h0
        · obtain ⟨st, r, hs, hge⟩ := ih (idx + 1) ⟨row, htl, he⟩
          exact ⟨st, r, by simp only [scanTokensY, if_neg h0]; exact hs,
            by omega⟩

theorem findInRow_present (t : String) :
    ∀ (row : List CellVal) (c0 : Nat), CellVal.str t ∈ row →
      ∃ c, findInRow t c0 row = some c ∧ c0 ≤ c := by
  intro row
  induction row with
  | nil => intro c0 h; simp at h
  | cons v rest ih =>
      intro c0 h
      by_cases hv : v = CellVal.str t
      · exact ⟨c0, by simp only [findInRow, if_pos hv], le_refl c0⟩
      · have htl : CellVal.str t ∈ rest := by
          rcases List.mem_cons.mp h with heq | hm
          · exact absurd heq.symm hv
          · exact hm
        obtain ⟨c, hc, hge⟩ := ih (c0 + 1) htl
        exact ⟨c, by simp only [findInRow, if_neg hv]; exact hc, by omega⟩

theorem findRowsG_present (t : String) :
    ∀ (g : Grid) (r0 : Nat), (∃ row ∈ g, CellVal.str t ∈ row) →
      ∃ r c, findRowsG t r0 g = some (r, c) ∧ r0 ≤ r ∧ 1 ≤ c := by
  intro g
  induction g with
  | nil =>
      intro r0 h
      obtain ⟨row, hm, _⟩ := h
      simp at hm
  | cons row0 rest ih =>
      intro r0 h
      obtain ⟨row, hm, he⟩ := h
      by_cases h0 : CellVal.str t ∈ row0
      · obtain ⟨c, hc, hge⟩ := findInRow_present t row0 1 h0
        refine ⟨r0, c, ?_, le_refl r0, hge⟩
        simp only [findRowsG]
        rw [hc]
      · have htl : CellVal.str t ∈ row ∧ row ∈ rest := by
          rcases List.mem_cons.mp hm with heq | hmm
          · exact absurd (heq ▸ he) h0
          · exact ⟨he, hmm⟩
        obtain ⟨r, c, hf, hge, hc1⟩ := ih (r0 + 1) ⟨row, htl.2, htl.1⟩
        refine ⟨r, c, ?_, by omega, hc1⟩
        simp only [findRowsG]
        rw [findInRow_none_of_not_mem t row0 h0 1]
        exact hf

theorem findRowsG_of_absent (t : String) (g : Grid) (r0 : Nat)
    (h : ∀ row ∈ g, CellVal.str t ∉ row) : findRowsG t r0 g = none := by
  have h2 := findRowsG_append_left t g [] r0 h
  rw [List.append_nil] at h2
  rw [h2]
  rfl

/-- C8 counterexample: a workbook whose `Tokens` table is missing — a
schema failure the claim says must surface as a distinct StorageError —
makes the blob-variant lookup return the plain NotFound triple, the very
same `ok` result as a workbook where the token is merely absent. -/
theorem c8_counterexample :
    checkTokenYandexE (.ok [("Prizes", [[.str "x"]])]) "t"
      = .ok (.empty, none, none) ∧
    checkTokenYandexE (.ok [("Tokens", [[.str "x", .str "active"]])]) "t"
      = .ok (.empty, none, none) := by
  exact ⟨rfl, rfl⟩

/-- C8 (amended): findToken distinguishes a present token (a location is
returned) from an absent one (the NotFound triple), and failures of the
download / spreadsheet-opening step propagate as errors; BUT a missing
`Tokens` table in the blob variant is reported as NotFound rather than a
distinct StorageError, and in the row variant a failure inside the guarded
`find` lookup is swallowed into NotFound as well. -/
theorem c8_find_token_outcomes :
    (∀ (e t : String), checkTokenYandexE (.error e) t = .error e) ∧
    (∀ (wb : Workbook) (t : String), lookupSheet wb "Tokens" = none →
        checkTokenYandexE (.ok wb) t = .ok (.empty, none, none)) ∧
    (∀ (wb : Workbook) (g : Grid) (t : String),
        lookupSheet wb "Tokens" = some g →
        (∃ row ∈ g, row.getD 0 .empty = .str t) →
        ∃ st r, checkTokenYandex wb t = (st, some r, none) ∧ 1 ≤ r) ∧
    (∀ (wb : Workbook) (g : Grid) (t : String),
        lookupSheet wb "Tokens" = some g →
        (∀ row ∈ g, row.getD 0 .empty ≠ .str t) →
        checkTokenYandex wb t = (.empty, none, none)) ∧
    (∀ (e t : String) (gE : Grid), checkTokenGoogleE (.error e) t = .error e
        ∧ checkTokenGoogleWithFind gE (.error e) = (.empty, none, none)) ∧
    (∀ (g : Grid) (t : String), (∃ row ∈ g, CellVal.str t ∈ row) →
        ∃ r c, checkTokenGoogle g t
          = (getCellG g r (c + 1), some r, some (c + 1)) ∧ 1 ≤ r ∧ 1 ≤ c) ∧
    (∀ (g : Grid) (t : String), (∀ row ∈ g, CellVal.str t ∉ row) →
        checkTokenGoogle g t = (.empty, none, none)) := by
  refine ⟨fun e t => rfl, ?_, ?_, ?_, fun e t gE => ⟨rfl, rfl⟩, ?_, ?_⟩
  · intro wb t h
    show Except.ok (checkTokenYandex wb t) = .ok (.empty, none, none)
    unfold checkTokenYandex
    rw [h]
  · intro wb g t hl hex
    rw [checkTokenYandex_eq_scan wb t g hl]
    obtain ⟨st, r, hs, hge⟩ := scanTokensY_present t g 1 hex
    exact ⟨st, r, hs, hge⟩
  · intro wb g t hl habs
    rw [checkTokenYandex_eq_scan wb t g hl]
    exact scanTokensY_of_absent t g 1 habs
  · intro g t hex
    obtain ⟨r, c, hf, hge, hc1⟩ := findRowsG_present t g 1 hex
    refine ⟨r, c, ?_, hge, hc1⟩
    unfold checkTokenGoogle checkTokenGoogleWithFind findCellGoogle
    rw [hf]
  · intro g t habs
    unfold checkTokenGoogle checkTokenGoogleWithFind findCellGoogle
    rw [findRowsG_of_absent t g 1 habs]

/-- Witness for the amended C8 at concrete stores: a download error
propagates; a present token yields a location; an absent token and a
missing table both yield NotFound. -/
theorem c8_witness :
    checkTokenYandexE (.error "neterr") "t" = .error "neterr" ∧
    checkTokenYandexE (.ok [("Prizes", [])]) "t" = .ok (.empty, none, none) ∧
    (∃ st r, checkTokenYandex [("Tokens", [[.str "t", .str "active"]])] "t"
      = (st, some r, none) ∧ 1 ≤ r) ∧
    (∃ r c, checkTokenGoogle [[.str "t", .str "active"]] "t"
      = (getCellG [[.str "t", .str "active"]] r (c + 1), some r, some (c + 1))
      ∧ 1 ≤ r ∧ 1 ≤ c) := by
  refine ⟨c8_find_token_outcomes.1 "neterr" "t",
    c8_find_token_outcomes.2.1 [("Prizes", [])] "t" rfl,
    c8_find_token_outcomes.2.2.1 [("Tokens", [[.str "t", .str "active"]])]
      [[.str "t", .str "active"]] "t" rfl ⟨[.str "t", .str "active"],
        by simp, rfl⟩,
    c8_find_token_outcomes.2.2.2.2.2.1 [[.str "t", .str "active"]] "t"
      ⟨[.str "t", .str "active"], by simp, by simp⟩⟩

theorem getD_mod_mem {α : Type} (l : List α) (k : Nat) (d : α)
    (h : l.isEmpty = false) : l.getD (k % l.length) d ∈ l := by
  have hlen : 0 < l.length := by
    cases l with
    | nil => simp at h
    | cons a as => simp
  have hk : k % l.length < l.length := Nat.mod_lt k hlen
  rw [List.getD_eq_getElem l d hk]
  exact List.getElem_mem hk

theorem getD_drop_one {α : Type} (l : List α) (j : Nat) (d : α) :
    (l.drop 1).getD j d = l.getD (1 + j) d := by
  rw [List.getD_eq_getElem?_getD, List.getD_eq_getElem?_getD,
    List.getElem?_drop]

theorem currOrZero_of_issued (row : List CellVal) (I : Int)
    (h : pyInt (issuedCellOf row) = .ok I) :
    currOrZero (row.getD 3 .empty) = .ok I := by
  unfold issuedCellOf at h
  by_cases he : row.getD 3 .empty = .empty
  · rw [if_pos he] at h
    simp only [pyInt, Except.ok.injEq] at h
    rw [he]
    unfold currOrZero
    rw [if_neg (by simp [CellVal.truthy])]
    rw [← h]
  · rw [if_neg he] at h
    unfold currOrZero
    cases hc : row.getD 3 .empty with
    | empty => exact absurd hc he
    | int n =>
        rw [hc] at h
        by_cases hn : (CellVal.int n).truthy = true
        · rw [if_pos hn]; exact h
        · rw [if_neg hn]
          have hn0 : n = 0 := by
            simpa [CellVal.truthy] using hn
          simp only [pyInt, Except.ok.injEq] at h
          rw [← h, hn0]
    | str s =>
        rw [hc] at h
        by_cases hs : (CellVal.str s).truthy = true
        · rw [if_pos hs]; exact h
        · have hs0 : s = "" := by
            simpa [CellVal.truthy] using hs
          rw [hs0] at h
          have hval : pyInt (CellVal.str "") = .error "ValueError" := rfl
          rw [hval] at h
          simp at h

theorem prizesFrom_mem (p : PrizeEntry) :
    ∀ (rows : List (List CellVal)) (idx : Nat) (l : List PrizeEntry),
      prizesFrom idx rows = .ok l → p ∈ l →
      ∃ j, j < rows.length ∧ p.rowIdx = idx + j ∧
        ∃ L I, pyInt ((rows.getD j []).getD 2 .empty) = .ok L ∧
          pyInt (issuedCellOf (rows.getD j [])) = .ok I ∧ I < L ∧
          p.issuedVal = issuedCellOf (rows.getD j []) ∧
          p.limitVal = (rows.getD j []).getD 2 .empty := by
  intro rows
  induction rows with
  | nil =>
      intro idx l h hp
      simp only [prizesFrom, Except.ok.injEq] at h
      rw [← h] at hp
      simp at hp
  | cons row rest ih =>
      intro idx l h hp
      by_cases hs : prizeRowShape row = true
      · simp only [prizesFrom, if_pos hs] at h
        cases h2 : pyInt (row.getD 2 .empty) with
        | error e => rw [h2] at h; simp at h
        | ok lim =>
            rw [h2] at h
            cases h3 : pyInt (issuedCellOf row) with
            | error e => rw [h3] at h; simp at h
            | ok iss =>
                rw [h3] at h
                cases h4 : prizesFrom (idx + 1) rest with
                | error e => rw [h4] at h; simp at h
                | ok tail =>
                    rw [h4] at h
                    have h5 : (if lim - iss > 0 then
                        Except.ok (PrizeEntry.mk (row.getD 1 .empty)
                          (row.getD 2 .empty) (issuedCellOf row) idx :: tail)
                        else (Except.ok tail : Except String (List PrizeEntry)))
                        = .ok l := h
                    by_cases hpos : lim - iss > 0
                    · rw [if_pos hpos, Except.ok.injEq] at h5
                      rw [← h5] at hp
                      rcases List.mem_cons.mp hp with heq | htl
                      · subst heq
                        exact ⟨0, by simp, by simp, lim, iss, h2, h3,
                          by omega, rfl, rfl⟩
                      · obtain ⟨j, hj, hridx, L, I, hL, hI, hlt, hiss, hlim⟩ :=
                          ih (idx + 1) tail h4 htl
                        exact ⟨j + 1, by simp only [List.length_cons]; omega,
                          by omega, L, I, hL, hI, hlt, hiss, hlim⟩
                    · rw [if_neg hpos, Except.ok.injEq] at h5
                      rw [← h5] at hp
                      obtain ⟨j, hj, hridx, L, I, hL, hI, hlt, hiss, hlim⟩ :=
                        ih (idx + 1) tail h4 hp
                      exact ⟨j + 1, by simp only [List.length_cons]; omega,
                        by omega, L, I, hL, hI, hlt, hiss, hlim⟩
      · simp only [prizesFrom, if_neg hs] at h
        obtain ⟨j, hj, hridx, L, I, hL, hI, hlt, hiss, hlim⟩ :=
          ih (idx + 1) l h hp
        exact ⟨j + 1, by simp only [List.length_cons]; omega, by omega,
          L, I, hL, hI, hlt, hiss, hlim⟩

theorem prizesInvB_updateSheet_other (wb : Workbook) (n : String) (g : Grid)
    (h : ¬"Prizes" = n) : prizesInvB (updateSheet wb n g) = prizesInvB wb := by
  unfold prizesInvB
  rw [lookupSheet_updateSheet_ne wb g h]

theorem markTokenUsedYandex_preserves_inv (td : TokenData) (wb wb' : Workbook)
    (hm : markTokenUsedYandex td wb = .ok wb') :
    prizesInvB wb' = prizesInvB wb := by
  obtain ⟨st, ro, co⟩ := td
  cases ro with
  | none =>
      have h0 : (Except.error "TypeError" : Except String Workbook)
          = .ok wb' := hm
      simp at h0
  | some r =>
      obtain ⟨hr0, gT, hlT, hwb'⟩ := markTokenUsedYandex_ok wb wb' st r co hm
      subst hwb'
      exact prizesInvB_updateSheet_other wb "Tokens" _ (by decide)

theorem recordWinnerYandex_preserves_inv (now : String) (u : User)
    (p : PrizeEntry) (wb wb' : Workbook)
    (hinv : prizesInvB wb = true)
    (hp : p ∈ getPrizesYandex wb)
    (hrec : recordWinnerYandex now u p wb = .ok wb') :
    prizesInvB wb' = true := by
  cases hcore : getPrizesYandexCore wb with
  | error e =>
      unfold getPrizesYandex at hp
      rw [hcore] at hp
      simp at hp
  | ok l =>
      have hpl : p ∈ l := by
        unfold getPrizesYandex at hp
        rw [hcore] at hp
        exact hp
      cases hP : lookupSheet wb "Prizes" with
      | none =>
          unfold getPrizesYandexCore at hcore
          rw [hP] at hcore
          have h0 : (Except.error "KeyError" : Except String (List PrizeEntry))
              = .ok l := hcore
          simp at h0
      | some gP =>
          have hrows : prizesFrom 2 (gP.drop 1) = .ok l := by
            unfold getPrizesYandexCore at hcore
            rw [hP] at hcore
            exact hcore
          obtain ⟨j, hj, hridx, L, I, hL, hI, hlt, hiss, hlim⟩ :=
            prizesFrom_mem p (gP.drop 1) 2 l hrows hpl
          have hrowEq : (gP.drop 1).getD j [] = gP.getD (1 + j) [] :=
            getD_drop_one gP j []
          have hcell : getCellG gP p.rowIdx 4
              = (gP.getD (1 + j) []).getD 3 .empty := by
            unfold getCellG getRowG
            rw [hridx]
            have hsub : 2 + j - 1 = 1 + j := by omega
            rw [hsub]
          have hcurr : currOrZero (getCellG gP p.rowIdx 4) = .ok I := by
            rw [hcell, ← hrowEq]
            exact currOrZero_of_issued _ I hI
          have hP' := recordWinnerYandex_ok now u p wb wb' gP I hP hcurr hrec
          unfold prizesInvB
          rw [hP']
          have hlen : 1 + j < gP.length := by
            have hd : (gP.drop 1).length = gP.length - 1 := by
              simp [List.length_drop]
            omega
          rw [hridx]
          unfold setCellG
          rw [padTo_eq_of_le [] (by omega : 2 + j ≤ gP.length)]
          rw [List.all_eq_true]
          intro x hx
          rcases List.mem_or_eq_of_mem_set hx with hxg | hxe
          · unfold prizesInvB at hinv
            rw [hP, List.all_eq_true] at hinv
            exact hinv x hxg
          · subst hxe
            have hRR : getRowG gP (2 + j) = gP.getD (1 + j) [] := by
              unfold getRowG
              have hsub : 2 + j - 1 = 1 + j := by omega
              rw [hsub]
            unfold invRowB
            rw [hRR]
            have hgd2 : (setRowCell (gP.getD (1 + j) []) 4 (.int (I + 1))).getD 2
                .empty = (gP.getD (1 + j) []).getD 2 .empty :=
              setRowCell_getD_ne _ _ (by omega : 4 - 1 ≠ 2)
            have hgd3 : (setRowCell (gP.getD (1 + j) []) 4 (.int (I + 1))).getD 3
                .empty = .int (I + 1) :=
              setRowCell_getD_self _ 4 _ (by omega)
            have hic : issuedCellOf (setRowCell (gP.getD (1 + j) []) 4
                (.int (I + 1))) = .int (I + 1) := by
              unfold issuedCellOf
              rw [hgd3]
              rw [if_neg (by simp : ¬CellVal.int (I + 1) = CellVal.empty)]
            rw [hgd2, hic, ← hrowEq, hL]
            have hpy : pyInt (CellVal.int (I + 1)) = .ok (I + 1) := rfl
            rw [hpy]
            show decide (I + 1 ≤ L) = true
            simp only [decide_eq_true_eq]
            omega

theorem processSpin_inv_preserved {σ : Type} (B : Backend σ) (t : String)
    (u : User) (k : Nat) (s : σ) (Inv : σ → Bool)
    (hs : Inv s = true)
    (hrecOK : ∀ (prizes : List PrizeEntry) (s' : σ),
        B.listPrizes s = .ok prizes → prizes.isEmpty = false →
        B.record u (prizes.getD (k % prizes.length) ⟨.empty, .empty, .empty, 0⟩)
          s = .ok s' → Inv s' = true)
    (hmarkOK : ∀ (td : TokenData) (s0 s' : σ), Inv s0 = true →
        B.mark td s0 = .ok s' → Inv s' = true) :
    Inv (processSpin B t u k s).store = true ∧
    ∀ w ∈ (processSpin B t u k s).trace, Inv w = true := by
  by_cases hact : (B.check s t).1 = CellVal.str "active"
  · cases hlp : B.listPrizes s with
    | error e =>
        have hres : processSpin B t u k s
            = ⟨s, .failed, [.checkToken, .getPrizes], [.techError], []⟩ := by
          simp only [processSpin, hact, hlp, if_true, eq_self_iff_true]
        rw [hres]
        exact ⟨hs, by intro w hw; simp at hw⟩
    | ok prizes =>
        by_cases hemp : prizes.isEmpty = true
        · by_cases hrow : rowTruthy (B.check s t).2.1 = true
          · cases hmk : B.mark (B.check s t) s with
            | ok s1 =>
                have hres : processSpin B t u k s
                    = ⟨s1, .exhausted, [.checkToken, .getPrizes, .markUsed],
                        [.noPrizes], [s1]⟩ := by
                  simp only [processSpin, hact, hlp, hemp, hrow, hmk, if_true,
                    eq_self_iff_true]
                rw [hres]
                have hs1 := hmarkOK (B.check s t) s s1 hs hmk
                refine ⟨hs1, ?_⟩
                intro w hw
                simp only [List.mem_singleton] at hw
                rw [hw]
                exact hs1
            | error e =>
                have hres : processSpin B t u k s
                    = ⟨s, .failed, [.checkToken, .getPrizes, .markUsed],
                        [.noPrizes, .techError], []⟩ := by
                  simp only [processSpin, hact, hlp, hemp, hrow, hmk, if_true,
                    eq_self_iff_true]
                rw [hres]
                exact ⟨hs, by intro w hw; simp at hw⟩
          · have hres : processSpin B t u k s
                = ⟨s, .exhausted, [.checkToken, .getPrizes], [.noPrizes], []⟩ := by
              simp only [processSpin, hact, hlp, hemp, if_true, eq_self_iff_true]
              rw [if_neg hrow]
            rw [hres]
            exact ⟨hs, by intro w hw; simp at hw⟩
        · cases hrc : B.record u
              (prizes.getD (k % prizes.length) ⟨.empty, .empty, .empty, 0⟩) s with
          | error e =>
              have hres : processSpin B t u k s
                  = ⟨s, .failed, [.checkToken, .getPrizes, .recordWinner],
                      [.techError], []⟩ := by
                simp only [processSpin, hact, hlp, hrc, if_true, eq_self_iff_true,
                  Bool.not_eq_true] at *
                simp only [processSpin, hact, hlp, hemp, hrc, if_true,
                  eq_self_iff_true, Bool.false_eq_true, if_false]
              rw [hres]
              exact ⟨hs, by intro w hw; simp at hw⟩
          | ok s1 =>
              have hs1 := hrecOK prizes s1 hlp (by simpa using hemp) hrc
              by_cases hrow : rowTruthy (B.check s t).2.1 = true
              · cases hmk : B.mark (B.check s t) s1 with
                | ok s2 =>
                    have hres : processSpin B t u k s
                        = ⟨s2, .awarded (prizes.getD (k % prizes.length)
                            ⟨.empty, .empty, .empty, 0⟩).name,
                            [.checkToken, .getPrizes, .recordWinner, .markUsed],
                            [.win (prizes.getD (k % prizes.length)
                              ⟨.empty, .empty, .empty, 0⟩).name], [s1, s2]⟩ := by
                      simp only [processSpin, hact, hlp, hemp, hrc, hrow, hmk,
                        if_true, eq_self_iff_true, Bool.false_eq_true, if_false]
                    rw [hres]
                    have hs2 := hmarkOK (B.check s t) s1 s2 hs1 hmk
                    refine ⟨hs2, ?_⟩
                    intro w hw
                    simp only [List.mem_cons, List.mem_singleton,
                      List.not_mem_nil, or_false] at hw
                    rcases hw with hw | hw
                    · rw [hw]; exact hs1
                    · rw [hw]; exact hs2
                | error e =>
                    have hres : processSpin B t u k s
                        = ⟨s1, .failed,
                            [.checkToken, .getPrizes, .recordWinner, .markUsed],
                            [.techError], [s1]⟩ := by
                      simp only [processSpin, hact, hlp, hemp, hrc, hrow, hmk,
                        if_true, eq_self_iff_true, Bool.false_eq_true, if_false]
                    rw [hres]
                    refine ⟨hs1, ?_⟩
                    intro w hw
                    simp only [List.mem_singleton] at hw
                    rw [hw]
                    exact hs1
              · have hres : processSpin B t u k s
                    = ⟨s1, .awarded (prizes.getD (k % prizes.length)
                        ⟨.empty, .empty, .empty, 0⟩).name,
                        [.checkToken, .getPrizes, .recordWinner],
                        [.win (prizes.getD (k % prizes.length)
                          ⟨.empty, .empty, .empty, 0⟩).name], [s1]⟩ := by
                  simp only [processSpin, hact, hlp, hemp, hrc, if_true,
                    eq_self_iff_true, Bool.false_eq_true, if_false]
                  rw [if_neg hrow]
                rw [hres]
                refine ⟨hs1, ?_⟩
                intro w hw
                simp only [List.mem_singleton] at hw
                rw [hw]
                exact hs1
  · have hres : processSpin B t u k s
        = ⟨s, .rejected, [.checkToken], [.inactive], []⟩ := by
      simp only [processSpin]
      rw [if_neg hact]
    rw [hres]
    exact ⟨hs, by intro w hw; simp at hw⟩

theorem processSpinYandex_preserves_inv (now t : String) (u : User) (k : Nat)
    (wb : Workbook) (hinv : prizesInvB wb = true) :
    prizesInvB (processSpin (yandexBackend now) t u k wb).store = true ∧
    ∀ w ∈ (processSpin (yandexBackend now) t u k wb).trace,
      prizesInvB w = true := by
  refine processSpin_inv_preserved (yandexBackend now) t u k wb prizesInvB
    hinv ?_ ?_
  · intro prizes s' hlp hne hrc
    have hlp2 : Except.ok (getPrizesYandex wb)
        = (Except.ok prizes : Except String (List PrizeEntry)) := hlp
    rw [Except.ok.injEq] at hlp2
    refine recordWinnerYandex_preserves_inv now u _ wb s' hinv ?_ hrc
    rw [hlp2]
    exact getD_mod_mem prizes k _ hne
  · intro td s0 s' h0 hmk
    rw [markTokenUsedYandex_preserves_inv td s0 s' hmk]
    exact h0

/-- C1: under the blob (Variant B) backend, for every starting store
satisfying the quota invariant and every sequence of complete redemption
flows (each flow: validate, list available prizes, choose one, award it,
consume the token), the issued count of every prize stays at or below its
limit — in the final store and in every intermediate store any flow's
mutation produced. -/
theorem c1_variantB_issued_never_exceeds_limit (now : String)
    (flows : List (String × User × Nat)) (wb : Workbook)
    (hinv : prizesInvB wb = true) :
    prizesInvB (runFlowsYandex now flows wb).1 = true ∧
    ∀ w ∈ (runFlowsYandex now flows wb).2, prizesInvB w = true := by
  induction flows generalizing wb with
  | nil =>
      refine ⟨hinv, ?_⟩
      intro w hw
      simp [runFlowsYandex] at hw
  | cons f rest ih =>
      obtain ⟨t, u, k⟩ := f
      have hstep := processSpinYandex_preserves_inv now t u k wb hinv
      obtain ⟨hfin, htr⟩ :=
        ih (processSpin (yandexBackend now) t u k wb).store hstep.1
      simp only [runFlowsYandex]
      refine ⟨hfin, ?_⟩
      intro w hw
      rw [List.mem_append] at hw
      rcases hw with h1 | h2
      · exact hstep.2 w h1
      · exact htr w h2

/-- Witness for C1: one redemption flow over a store with a single
active token and one prize with limit 1, issued 0. -/
theorem c1_witness :
    prizesInvB wbQuota = true ∧
    prizesInvB (runFlowsYandex "ts" [("q", ⟨1, none⟩, 0)] wbQuota).1 = true ∧
    ∀ w ∈ (runFlowsYandex "ts" [("q", ⟨1, none⟩, 0)] wbQuota).2,
      prizesInvB w = true := by
  have h := c1_variantB_issued_never_exceeds_limit "ts"
    [("q", ⟨1, none⟩, 0)] wbQuota (by decide)
  exact ⟨by decide, h.1, h.2⟩

/-- C1 counterexample: under the blob variant, two redemption flows for
two different active tokens, interleaved so that both list the last
remaining slot of prize "P" (limit 1, issued 0) before either awards.
Both then award — the blob award re-reads and increments
unconditionally — and the stored issued count reaches 2 > 1: the quota
invariant is violated in a reachable store state even under Variant B,
because the process-wide lock serializes individual storage calls only,
not the listing-to-award window of a flow. -/
theorem c1_counterexample :
    prizesInvB (twoFlowRun (yandexBackend "ts") "t1" "t2" ⟨1, none⟩ ⟨2, none⟩
      0 0 [false, true, false, true, false, false, true, true]
      ⟨[("Tokens", [[.str "t1", .str "active"], [.str "t2", .str "active"]]),
        ("Prizes", [[.str "ID", .str "Name", .str "Limit", .str "Issued"],
                    [.str "1", .str "P", .int 1, .int 0]])],
       .ready, .ready⟩).store = false ∧
    getCellG ((lookupSheet (twoFlowRun (yandexBackend "ts") "t1" "t2"
      ⟨1, none⟩ ⟨2, none⟩ 0 0
      [false, true, false, true, false, false, true, true]
      ⟨[("Tokens", [[.str "t1", .str "active"], [.str "t2", .str "active"]]),
        ("Prizes", [[.str "ID", .str "Name", .str "Limit", .str "Issued"],
                    [.str "1", .str "P", .int 1, .int 0]])],
       .ready, .ready⟩).store "Prizes").getD []) 2 4 = .int 2 := by
  exact ⟨rfl, rfl⟩
